import Mathlib

/-!
Verification development for the `local-cv-to-website` repository.

Python strings are modelled as lists of characters (`Str := List Char`).
Python `re` searches are embedded as explicit scanning functions following
the backtracking semantics of the concrete patterns used by the source
(`src/utils/parsers.py`).  JSON handling (`json.loads` / `json.dumps`)
is embedded by an executable JSON parser and printer.  Floating point
temperatures are modelled as rationals; nothing ever computes with them.
Logging calls of the source are ignored; calls to `unload_model` and to
the UI dialogs are recorded as events so that "invoked exactly once on
the failure path" style properties can be stated.
-/

set_option maxRecDepth 100000

namespace CvSite

abbrev Str := List Char

/-- Model of the Python substring test `sub in s`. -/
def pyContains (sub : Str) : Str → Bool
  | [] => sub.isEmpty
  | c :: t => sub.isPrefixOf (c :: t) || pyContains sub t

/-- Whitespace for the regex class `\s` (ASCII fragment used by the source). -/
def reIsSpace (c : Char) : Bool :=
  c = ' ' || c = '\t' || c = '\n' || c = '\r' || c = '\x0b' || c = '\x0c'

/-- Greedy `\s*` before a mandatory non-space literal: skip the maximal run. -/
def skipSpaces (s : Str) : Str := s.dropWhile reIsSpace

/-- Model of the Python `str.strip()` (ASCII whitespace fragment). -/
def pyStrip (s : Str) : Str :=
  ((s.dropWhile reIsSpace).reverse.dropWhile reIsSpace).reverse

/-- Model of the Python `str.lower()` (ASCII fragment). -/
def pyLower (s : Str) : Str := s.map Char.toLower

/-- Case-insensitive literal-prefix test, for the `re.IGNORECASE` patterns. -/
def ciIsPrefixOf (p s : Str) : Bool := (pyLower p).isPrefixOf (pyLower s)

/-- Model of the Python slice `s[:n]`. -/
def pySlice (n : Nat) (s : Str) : Str := s.take n

/-! ## JSON values (the model of Python objects produced by `json.loads`) -/

inductive JValue where
  | jnull
  | jbool (b : Bool)
  | jnum (lexeme : Str)
  | jstr (s : Str)
  | jarr (elems : List JValue)
  | jobj (fields : List (Str × JValue))

/-- Whitespace accepted between JSON tokens by `json.loads` (space, tab,
newline, carriage return). -/
def jsonIsWs (c : Char) : Bool :=
  c = ' ' || c = '\t' || c = '\n' || c = '\r'

def skipJsonWs (s : Str) : Str := s.dropWhile jsonIsWs

def hexVal (c : Char) : Option Nat :=
  if '0' ≤ c ∧ c ≤ '9' then some (c.toNat - '0'.toNat)
  else if 'a' ≤ c ∧ c ≤ 'f' then some (c.toNat - 'a'.toNat + 10)
  else if 'A' ≤ c ∧ c ≤ 'F' then some (c.toNat - 'A'.toNat + 10)
  else none

/-- Decode the body of a JSON string literal (after the opening quote),
returning the decoded text and the remainder after the closing quote.
Strict mode: raw control characters are rejected.  Lone surrogates, which
Python would keep as surrogate code points, fall back to the `Char.ofNat`
default and are outside the scope of any claim.  Fuel-indexed (structural
on the fuel); a fuel of `s.length + 1` is sufficient since every
recursive call strictly consumes input. -/
def parseStringBodyF : Nat → Str → Option (Str × Str)
  | 0, _ => none
  | _ + 1, [] => none
  | _ + 1, '"' :: t => some ([], t)
  | fuel + 1, '\\' :: esc =>
    match esc with
    | '"' :: t => (parseStringBodyF fuel t).map (fun r => ('"' :: r.1, r.2))
    | '\\' :: t => (parseStringBodyF fuel t).map (fun r => ('\\' :: r.1, r.2))
    | '/' :: t => (parseStringBodyF fuel t).map (fun r => ('/' :: r.1, r.2))
    | 'b' :: t => (parseStringBodyF fuel t).map (fun r => ('\x08' :: r.1, r.2))
    | 'f' :: t => (parseStringBodyF fuel t).map (fun r => ('\x0c' :: r.1, r.2))
    | 'n' :: t => (parseStringBodyF fuel t).map (fun r => ('\n' :: r.1, r.2))
    | 'r' :: t => (parseStringBodyF fuel t).map (fun r => ('\r' :: r.1, r.2))
    | 't' :: t => (parseStringBodyF fuel t).map (fun r => ('\t' :: r.1, r.2))
    | 'u' :: a :: b :: c :: d :: t =>
      match hexVal a, hexVal b, hexVal c, hexVal d with
      | some ha, some hb, some hc, some hd =>
        let code := ((ha * 16 + hb) * 16 + hc) * 16 + hd
        if 0xD800 ≤ code ∧ code ≤ 0xDBFF then
          match t with
          | '\\' :: 'u' :: e :: f :: g :: h :: t2 =>
            match hexVal e, hexVal f, hexVal g, hexVal h with
            | some he, some hf, some hg, some hh =>
              let lo := ((he * 16 + hf) * 16 + hg) * 16 + hh
              if 0xDC00 ≤ lo ∧ lo ≤ 0xDFFF then
                (parseStringBodyF fuel t2).map
                  (fun r =>
                    (Char.ofNat (0x10000 + (code - 0xD800) * 0x400 + (lo - 0xDC00)) :: r.1,
                     r.2))
              else (parseStringBodyF fuel t).map (fun r => (Char.ofNat code :: r.1, r.2))
            | _, _, _, _ => (parseStringBodyF fuel t).map (fun r => (Char.ofNat code :: r.1, r.2))
          | _ => (parseStringBodyF fuel t).map (fun r => (Char.ofNat code :: r.1, r.2))
        else (parseStringBodyF fuel t).map (fun r => (Char.ofNat code :: r.1, r.2))
      | _, _, _, _ => none
    | _ => none
  | fuel + 1, c :: t =>
    if c.toNat < 32 then none
    else (parseStringBodyF fuel t).map (fun r => (c :: r.1, r.2))

def parseStringBody (s : Str) : Option (Str × Str) :=
  parseStringBodyF (s.length + 1) s

def isDigit (c : Char) : Bool := '0' ≤ c && c ≤ '9'

/-- Fraction and exponent part of the JSON number lexer. -/
def lexNumberFrac (intPart : Str) (s : Str) : Option (Str × Str) :=
  let (fracPart, s2) : Str × Str :=
    match s with
    | '.' :: t =>
      match t.takeWhile isDigit with
      | [] => ([], s)
      | ds => ('.' :: ds, t.dropWhile isDigit)
    | _ => ([], s)
  let (expPart, s3) : Str × Str :=
    match s2 with
    | e :: rest =>
      if e = 'e' ∨ e = 'E' then
        let (esign, r2) : Str × Str :=
          match rest with
          | '+' :: t => (['+'], t)
          | '-' :: t => (['-'], t)
          | _ => ([], rest)
        match r2.takeWhile isDigit with
        | [] => ([], s2)
        | ds => (e :: (esign ++ ds), r2.dropWhile isDigit)
      else ([], s2)
    | [] => ([], s2)
  some (intPart ++ fracPart ++ expPart, s3)

/-- Lex a JSON number at the head of `s` (the `NUMBER_RE` of the Python
`json` module: `-?(0|[1-9][0-9]*)(\.[0-9]+)?([eE][+-]?[0-9]+)?`),
returning the lexeme and the remainder. -/
def lexNumber (s : Str) : Option (Str × Str) :=
  let (sign, s1) : Str × Str :=
    match s with
    | '-' :: t => (['-'], t)
    | _ => ([], s)
  match s1 with
  | '0' :: t => lexNumberFrac (sign ++ ['0']) t
  | c :: t =>
    if isDigit c then
      let ds := t.takeWhile isDigit
      lexNumberFrac (sign ++ c :: ds) (t.dropWhile isDigit)
    else none
  | [] => none

def litNull : Str := "null".toList
def litTrue : Str := "true".toList
def litFalse : Str := "false".toList
def litNaN : Str := "NaN".toList
def litInfinity : Str := "Infinity".toList
def litNegInfinity : Str := "-Infinity".toList

/-- Parsing mode: a whole value, or the member/element loop of a compound
(with `first` distinguishing the position right after `{` / `[`, where a
closing bracket is allowed, from the position after a comma, where it is
not). -/
inductive PMode where
  | value
  | members (first : Bool) (acc : List (Str × JValue))
  | elements (first : Bool) (acc : List JValue)

/-- Recursive JSON parser, fuel-indexed (structural on the fuel so that it
reduces inside the kernel).  A fuel of `s.length + 1` is sufficient because
every recursive call strictly consumes input. -/
def parseCore : Nat → PMode → Str → Option (JValue × Str)
  | 0, _, _ => none
  | fuel + 1, .value, s =>
    if litNull.isPrefixOf s then some (.jnull, s.drop 4)
    else if litTrue.isPrefixOf s then some (.jbool true, s.drop 4)
    else if litFalse.isPrefixOf s then some (.jbool false, s.drop 5)
    else if litNaN.isPrefixOf s then some (.jnum litNaN, s.drop 3)
    else if litInfinity.isPrefixOf s then some (.jnum litInfinity, s.drop 8)
    else if litNegInfinity.isPrefixOf s then some (.jnum litNegInfinity, s.drop 9)
    else
      match s with
      | '"' :: t => (parseStringBody t).map (fun r => (.jstr r.1, r.2))
      | '{' :: t => parseCore fuel (.members true []) (skipJsonWs t)
      | '[' :: t => parseCore fuel (.elements true []) (skipJsonWs t)
      | _ => (lexNumber s).map (fun r => (.jnum r.1, r.2))
  | fuel + 1, .members first acc, s =>
    match s with
    | '}' :: t => if first then some (.jobj acc.reverse, t) else none
    | '"' :: t =>
      match parseStringBody t with
      | none => none
      | some (key, r1) =>
        match skipJsonWs r1 with
        | ':' :: r2 =>
          match parseCore fuel .value (skipJsonWs r2) with
          | none => none
          | some (v, r3) =>
            match skipJsonWs r3 with
            | ',' :: r4 => parseCore fuel (.members false ((key, v) :: acc)) (skipJsonWs r4)
            | '}' :: r4 => some (.jobj ((key, v) :: acc).reverse, r4)
            | _ => none
        | _ => none
    | _ => none
  | fuel + 1, .elements first acc, s =>
    match s with
    | ']' :: t => if first then some (.jarr acc.reverse, t) else none
    | _ =>
      match parseCore fuel .value s with
      | none => none
      | some (v, r1) =>
        match skipJsonWs r1 with
        | ',' :: r2 => parseCore fuel (.elements false (v :: acc)) (skipJsonWs r2)
        | ']' :: r2 => some (.jarr (v :: acc).reverse, r2)
        | _ => none

/-- Model of `json.loads`: parse one value and require only whitespace
afterwards (the Extra data error otherwise); `none` models a raised
`JSONDecodeError`. -/
def jsonLoads (s : Str) : Option JValue :=
  match parseCore (s.length + 1) .value (skipJsonWs s) with
  | some (v, rest) => if (skipJsonWs rest).isEmpty then some v else none
  | none => none

/-! ## `json.dumps(..., indent=2, ensure_ascii=False)` -/

def hexDigit (n : Nat) : Char :=
  if n < 10 then Char.ofNat ('0'.toNat + n) else Char.ofNat ('a'.toNat + n - 10)

/-- Escaping of one character inside a dumped JSON string
(`ensure_ascii=False`: only `"`, `\` and control characters). -/
def jsonEscChar (c : Char) : Str :=
  if c = '"' then ['\\', '"']
  else if c = '\\' then ['\\', '\\']
  else if c = '\x08' then ['\\', 'b']
  else if c = '\x0c' then ['\\', 'f']
  else if c = '\n' then ['\\', 'n']
  else if c = '\r' then ['\\', 'r']
  else if c = '\t' then ['\\', 't']
  else if c.toNat < 32 then
    ['\\', 'u', '0', '0', hexDigit (c.toNat / 16), hexDigit (c.toNat % 16)]
  else [c]

def jsonDumpStr (s : Str) : Str := '"' :: (s.flatMap jsonEscChar) ++ ['"']

def indentOf (lvl : Nat) : Str := List.replicate (2 * lvl) ' '

/-- Serializer matching `json.dumps(obj, indent=2, ensure_ascii=False)` on
the values produced by `CVData.to_dict` (numbers are printed from their
stored lexeme; `to_dict` never produces numbers). -/
def dumpJson (v : JValue) (lvl : Nat) : Str :=
  match v with
  | .jnull => litNull
  | .jbool true => litTrue
  | .jbool false => litFalse
  | .jnum lx => lx
  | .jstr s => jsonDumpStr s
  | .jarr [] => ['[', ']']
  | .jarr (x :: xs) =>
    '[' :: '\n' ::
      (List.intercalate [',', '\n']
        (((x :: xs).attach).map
          (fun e => indentOf (lvl + 1) ++ dumpJson e.1 (lvl + 1))))
      ++ '\n' :: indentOf lvl ++ [']']
  | .jobj [] => ['{', '}']
  | .jobj (f :: fs) =>
    '{' :: '\n' ::
      (List.intercalate [',', '\n']
        (((f :: fs).attach).map
          (fun e =>
            indentOf (lvl + 1) ++ jsonDumpStr e.1.1 ++ ':' :: ' ' :: dumpJson e.1.2 (lvl + 1))))
      ++ '\n' :: indentOf lvl ++ ['}']
termination_by sizeOf v
decreasing_by
  · have h1 := List.sizeOf_lt_of_mem e.2
    simp only [JValue.jarr.sizeOf_spec]
    omega
  · have h1 := List.sizeOf_lt_of_mem e.2
    obtain ⟨⟨a, b⟩, hm⟩ := e
    simp only [JValue.jobj.sizeOf_spec, Prod.mk.sizeOf_spec] at h1 ⊢
    omega

def jsonDumps (v : JValue) : Str := dumpJson v 0

/-! ## `ResponseParser` (src/utils/parsers.py)

`extract_json` runs, in order:
  1. the DOTALL substitution deleting every non-greedy region from an
     opening `<think>` to the first following `</think>`;
  2. a search for a fenced code block — three backticks, an optional
     literal `json`, `\s*`, then a lazily matched object literal group,
     `\s*` and three closing backticks — with `json.loads` of the group;
  3. a search for a raw object literal — `\{[\s\S]*\}`, greedy — with
     `json.loads` of the match;
  4. the value `None`.
Each regex is embedded as a scanner with the backtracking semantics of the
concrete pattern: leftmost start position, greedy `\s*` before a non-space
literal (equivalent to skipping the maximal space run), lazy `[\s\S]*?`
stopping at the first position whose continuation matches. -/

def thinkOpen : Str := "<think>".toList
def thinkClose : Str := "</think>".toList
def backtick3 : Str := "\x60\x60\x60".toList
def litJson : Str := "json".toList

/-- Position of the first occurrence of `</think>`: drop everything up to
and including it. -/
def dropThroughClose : Str → Option Str
  | [] => none
  | c :: t =>
    if thinkClose.isPrefixOf (c :: t) then some ((c :: t).drop 8)
    else dropThroughClose t

/-- Model of the DOTALL reasoning-tag substitution (step 1), fuel-indexed
(a fuel of `s.length` is sufficient: each step consumes at least one
character). -/
def removeThinkF : Nat → Str → Str
  | 0, s => s
  | fuel + 1, s =>
    match s with
    | [] => []
    | c :: t =>
      if thinkOpen.isPrefixOf (c :: t) then
        match dropThroughClose ((c :: t).drop 7) with
        | some rest => removeThinkF fuel rest
        | none => c :: removeThinkF fuel t
      else c :: removeThinkF fuel t

def removeThink (s : Str) : Str := removeThinkF s.length s

/-- Test for `\s*` followed by the closing fence, required after the lazy group. -/
def fenceFollows (s : Str) : Bool := backtick3.isPrefixOf (skipSpaces s)

/-- The lazy part `[\s\S]*?\}` of the fenced-JSON pattern: starting after
the opening brace, stop at the first `}` whose continuation matches
`\s*` + fence; otherwise consume the character and go on. -/
def scanLazyJson : Str → Str → Option Str
  | [], _ => none
  | c :: t, acc =>
    if c = '}' && fenceFollows t then some ('{' :: (acc.reverse ++ ['}']))
    else scanLazyJson t (c :: acc)

def tryJsonBody (s : Str) : Option Str :=
  match s with
  | '{' :: t => scanLazyJson t []
  | _ => none

/-- Attempt the fenced-JSON pattern at one start position, with the
backtracking order of `(?:json)?` (consume `json` first, retry empty). -/
def tryFenceJsonAt (s : Str) : Option Str :=
  if backtick3.isPrefixOf s then
    let s1 := s.drop 3
    let withJson : Option Str :=
      if litJson.isPrefixOf s1 then tryJsonBody (skipSpaces (s1.drop 4)) else none
    match withJson with
    | some g => some g
    | none => tryJsonBody (skipSpaces s1)
  else none

/-- Search for the fenced-JSON pattern: try every start position left
to right. -/
def findFencedJson : Str → Option Str
  | [] => none
  | c :: t =>
    match tryFenceJsonAt (c :: t) with
    | some g => some g
    | none => findFencedJson t

/-- Search for a raw object literal (step 3): from the first `{`, greedily to the
last `}` of the remaining text (no match if no `}` follows the first
`{`; a later start position could not succeed either). -/
def findBraceSpan (s : Str) : Option Str :=
  match s.dropWhile (fun c => c != '{') with
  | [] => none
  | c :: v =>
    if v.contains '}' then
      some (c :: ((v.reverse.dropWhile (fun d => d != '}')).reverse))
    else none

def fallbackBraces (t : Str) : Option JValue :=
  match findBraceSpan t with
  | some g => jsonLoads g
  | none => none

/-- Body of `ResponseParser.extract_json` after the thinking tags were removed. -/
def extractJsonCore (t : Str) : Option JValue :=
  match findFencedJson t with
  | some g =>
    match jsonLoads g with
    | some v => some v
    | none => fallbackBraces t
  | none => fallbackBraces t

/-- Model of `ResponseParser.extract_json` (returns the parsed dictionary, or
`none` where Python returns `None`). -/
def extract_json (text : Str) : Option JValue :=
  extractJsonCore (removeThink text)

def doctypeLit : Str := "<!DOCTYPE".toList
def htmlCloseLit : Str := "</html>".toList
def litHtml : Str := "html".toList

/-- Lazy part `[\s\S]*?</html>` (case-insensitive) of the fenced-HTML
pattern, with the `\s*` + fence continuation check; the matched group
keeps the original characters. -/
def scanLazyHtml : Str → Str → Option Str
  | [], _ => none
  | c :: t, acc =>
    if ciIsPrefixOf htmlCloseLit (c :: t) && fenceFollows ((c :: t).drop 7) then
      some (acc.reverse ++ (c :: t).take 7)
    else scanLazyHtml t (c :: acc)

def tryHtmlBody (s : Str) : Option Str :=
  if ciIsPrefixOf doctypeLit s then scanLazyHtml (s.drop 9) (s.take 9).reverse
  else none

/-- One start position of the fenced-HTML search: three backticks, an
optional literal html, `\s*`, then the lazily matched group from the
document-type marker to the closing root tag (all case-insensitive),
`\s*` and three closing backticks. -/
def tryFenceHtmlAt (s : Str) : Option Str :=
  if backtick3.isPrefixOf s then
    let s1 := s.drop 3
    let withHtml : Option Str :=
      if ciIsPrefixOf litHtml s1 then tryHtmlBody (skipSpaces (s1.drop 4)) else none
    match withHtml with
    | some g => some g
    | none => tryHtmlBody (skipSpaces s1)
  else none

def findFencedHtml : Str → Option Str
  | [] => none
  | c :: t =>
    match tryFenceHtmlAt (c :: t) with
    | some g => some g
    | none => findFencedHtml t

/-- Start index of the last case-insensitive occurrence of `</html>`. -/
def lastHtmlClose : Str → Option Nat
  | [] => none
  | c :: t =>
    match lastHtmlClose t with
    | some i => some (i + 1)
    | none => if ciIsPrefixOf htmlCloseLit (c :: t) then some 0 else none

/-- From a position where `<!DOCTYPE` matches: greedy `[\s\S]*</html>`,
i.e. up to the last occurrence of `</html>` (which cannot start inside
the nine `<!DOCTYPE` characters, since `<` occurs there only at index 0
where `<!` and `</` differ). -/
def rawHtmlFrom (u : Str) : Option Str :=
  match lastHtmlClose (u.drop 9) with
  | some p => some (u.take (9 + p + 7))
  | none => none

/-- Search for the raw (greedy, case-insensitive) document region. -/
def findRawHtml : Str → Option Str
  | [] => none
  | c :: t =>
    if ciIsPrefixOf doctypeLit (c :: t) then
      match rawHtmlFrom (c :: t) with
      | some g => some g
      | none => findRawHtml t
    else findRawHtml t

/-- Model of `ResponseParser.extract_html`. -/
def extract_html (text : Str) : Str :=
  match findFencedHtml text with
  | some g => pyStrip g
  | none =>
    match findRawHtml text with
    | some g => pyStrip g
    | none => pyStrip text

/-! ## CV data model (src/models/cv_data.py)

The dataclass fields carry the types of their annotations; dictionary
values of a different JSON type (on which the dynamically typed source
would either store the odd value or raise) are outside the scope of the
claims and read back as the declared default of the field. -/

structure PersonalInfo where
  name : Str := []
  title : Str := []
  tagline : Str := []
  bio : Str := []
  email : Option Str := none
  phone : Option Str := none
  location : Option Str := none

structure Links where
  linkedin : Option Str := none
  github : Option Str := none
  website : Option Str := none
  other : List Str := []

structure Experience where
  company : Str := []
  role : Str := []
  period : Str := []
  description : Str := []
  highlights : List Str := []

structure Project where
  name : Str := []
  description : Str := []
  tech_stack : List Str := []
  link : Option Str := none
  type : Str := []

structure Education where
  institution : Str := []
  degree : Str := []
  period : Str := []

structure Skills where
  languages : List Str := []
  frameworks : List Str := []
  tools : List Str := []
  specialties : List Str := []

structure CVData where
  personal : PersonalInfo := {}
  links : Links := {}
  experience : List Experience := []
  projects : List Project := []
  education : List Education := []
  skills : Skills := {}
  certifications : List Str := []
  languages_spoken : List Str := []
  raw_analysis : Option Str := none
  original_cv_text : Str := []

attribute [ext] PersonalInfo Links Experience Project Education Skills CVData

def kPersonal : Str := "personal".toList
def kName : Str := "name".toList
def kTitle : Str := "title".toList
def kTagline : Str := "tagline".toList
def kBio : Str := "bio".toList
def kEmail : Str := "email".toList
def kPhone : Str := "phone".toList
def kLocation : Str := "location".toList
def kLinks : Str := "links".toList
def kLinkedin : Str := "linkedin".toList
def kGithub : Str := "github".toList
def kWebsite : Str := "website".toList
def kOther : Str := "other".toList
def kExperience : Str := "experience".toList
def kCompany : Str := "company".toList
def kRole : Str := "role".toList
def kPeriod : Str := "period".toList
def kDescription : Str := "description".toList
def kHighlights : Str := "highlights".toList
def kProjects : Str := "projects".toList
def kTechStack : Str := "tech_stack".toList
def kLink : Str := "link".toList
def kType : Str := "type".toList
def kEducation : Str := "education".toList
def kInstitution : Str := "institution".toList
def kDegree : Str := "degree".toList
def kSkills : Str := "skills".toList
def kLanguages : Str := "languages".toList
def kFrameworks : Str := "frameworks".toList
def kTools : Str := "tools".toList
def kSpecialties : Str := "specialties".toList
def kCertifications : Str := "certifications".toList
def kLanguagesSpoken : Str := "languages_spoken".toList
def kRawAnalysis : Str := "raw_analysis".toList

/-- Last-binding lookup in an association list: Python dictionaries built
by `json.loads` keep, for a repeated key, its last value. -/
def lookupLast (fields : List (Str × JValue)) (k : Str) : Option JValue :=
  match fields with
  | [] => none
  | (k2, v) :: t =>
    match lookupLast t k with
    | some r => some r
    | none => if k2 = k then some v else none

def JValue.find (d : JValue) (k : Str) : Option JValue :=
  match d with
  | .jobj fs => lookupLast fs k
  | _ => none

def jStrOf : JValue → Option Str
  | .jstr s => some s
  | _ => none

/-- Reading `d.get(k, dflt)` at a string-annotated field. -/
def pyGetStr (d : JValue) (k : Str) (dflt : Str) : Str :=
  match d.find k with
  | some (.jstr s) => s
  | _ => dflt

/-- Reading `d.get(k)` at an `Optional[str]` field (JSON `null` and a
missing key both give Python `None`). -/
def pyGetOptStr (d : JValue) (k : Str) : Option Str :=
  match d.find k with
  | some (.jstr s) => some s
  | _ => none

/-- Reading `d.get(k, [])` at a `list[str]` field. -/
def pyGetStrList (d : JValue) (k : Str) : List Str :=
  match d.find k with
  | some (.jarr xs) => xs.filterMap jStrOf
  | _ => []

def optJ : Option Str → JValue
  | some s => .jstr s
  | none => .jnull

/-- Model of `CVData.to_dict` (the dictionary later fed to `json.dumps`; it omits
`raw_analysis` and `original_cv_text`). -/
def CVData.to_dict (cv : CVData) : JValue :=
  .jobj
    [ (kPersonal, .jobj
        [ (kName, .jstr cv.personal.name)
        , (kTitle, .jstr cv.personal.title)
        , (kTagline, .jstr cv.personal.tagline)
        , (kBio, .jstr cv.personal.bio)
        , (kEmail, optJ cv.personal.email)
        , (kPhone, optJ cv.personal.phone)
        , (kLocation, optJ cv.personal.location)
        ])
    , (kLinks, .jobj
        [ (kLinkedin, optJ cv.links.linkedin)
        , (kGithub, optJ cv.links.github)
        , (kWebsite, optJ cv.links.website)
        , (kOther, .jarr (cv.links.other.map .jstr))
        ])
    , (kExperience, .jarr (cv.experience.map (fun exp => .jobj
        [ (kCompany, .jstr exp.company)
        , (kRole, .jstr exp.role)
        , (kPeriod, .jstr exp.period)
        , (kDescription, .jstr exp.description)
        , (kHighlights, .jarr (exp.highlights.map .jstr))
        ])))
    , (kProjects, .jarr (cv.projects.map (fun proj => .jobj
        [ (kName, .jstr proj.name)
        , (kDescription, .jstr proj.description)
        , (kTechStack, .jarr (proj.tech_stack.map .jstr))
        , (kLink, optJ proj.link)
        , (kType, .jstr proj.type)
        ])))
    , (kEducation, .jarr (cv.education.map (fun edu => .jobj
        [ (kInstitution, .jstr edu.institution)
        , (kDegree, .jstr edu.degree)
        , (kPeriod, .jstr edu.period)
        ])))
    , (kSkills, .jobj
        [ (kLanguages, .jarr (cv.skills.languages.map .jstr))
        , (kFrameworks, .jarr (cv.skills.frameworks.map .jstr))
        , (kTools, .jarr (cv.skills.tools.map .jstr))
        , (kSpecialties, .jarr (cv.skills.specialties.map .jstr))
        ])
    , (kCertifications, .jarr (cv.certifications.map .jstr))
    , (kLanguagesSpoken, .jarr (cv.languages_spoken.map .jstr))
    ]

def Experience.fromEntry (e : JValue) : Experience :=
  { company := pyGetStr e kCompany []
  , role := pyGetStr e kRole []
  , period := pyGetStr e kPeriod []
  , description := pyGetStr e kDescription []
  , highlights := pyGetStrList e kHighlights }

def Project.fromEntry (p : JValue) : Project :=
  { name := pyGetStr p kName []
  , description := pyGetStr p kDescription []
  , tech_stack := pyGetStrList p kTechStack
  , link := pyGetOptStr p kLink
  , type := pyGetStr p kType [] }

def Education.fromEntry (e : JValue) : Education :=
  { institution := pyGetStr e kInstitution []
  , degree := pyGetStr e kDegree []
  , period := pyGetStr e kPeriod [] }

/-- Model of `CVData.from_dict(data, cv_text)`; the branches mirror the
`if key in data:` guards of the source, with the dataclass defaults kept
when a section is absent. -/
def CVData.from_dict (data : JValue) (cv_text : Str := []) : CVData :=
  { personal :=
      match data.find kPersonal with
      | some p =>
        { name := pyGetStr p kName []
        , title := pyGetStr p kTitle []
        , tagline := pyGetStr p kTagline []
        , bio := pyGetStr p kBio []
        , email := pyGetOptStr p kEmail
        , phone := pyGetOptStr p kPhone
        , location := pyGetOptStr p kLocation }
      | none => {}
  , links :=
      match data.find kLinks with
      | some l =>
        { linkedin := pyGetOptStr l kLinkedin
        , github := pyGetOptStr l kGithub
        , website := pyGetOptStr l kWebsite
        , other := pyGetStrList l kOther }
      | none => {}
  , experience :=
      match data.find kExperience with
      | some (.jarr xs) => xs.map Experience.fromEntry
      | _ => []
  , projects :=
      match data.find kProjects with
      | some (.jarr xs) => xs.map Project.fromEntry
      | _ => []
  , education :=
      match data.find kEducation with
      | some (.jarr xs) => xs.map Education.fromEntry
      | _ => []
  , skills :=
      match data.find kSkills with
      | some s =>
        { languages := pyGetStrList s kLanguages
        , frameworks := pyGetStrList s kFrameworks
        , tools := pyGetStrList s kTools
        , specialties := pyGetStrList s kSpecialties }
      | none => {}
  , certifications := pyGetStrList data kCertifications
  , languages_spoken := pyGetStrList data kLanguagesSpoken
  , raw_analysis :=
      match data.find kRawAnalysis with
      | some (.jstr s) => some s
      | _ => none
  , original_cv_text := cv_text }

/-! ## LLM service interface (src/interfaces/llm_service.py) -/

structure LLMConfig where
  temperature : Rat := 3/10
  max_tokens : Nat := 4096
  context_window : Nat := 8192

structure LLMResponse where
  content : Str
  model : Str
  success : Bool
  error : Option Str := none

structure ChatMessage where
  role : Str
  content : Str

/-- One recorded effect: an `unload_model` call on the LLM service. -/
inductive LLMEvent where
  | unload (model : Str)
deriving DecidableEq

abbrev ChatFun := List ChatMessage → Str → LLMConfig → LLMResponse

def userRole : Str := "user".toList

/-- Python `str(x)` of the `Optional[str]` error as interpolated into a
stage-error message (`str(None)` is `"None"`). -/
def pyStrOfOpt : Option Str → Str
  | some s => s
  | none => "None".toList

def errPrefixS : String := "LLM request failed: "

/-! ## `DeepSeekAnalyzer` (src/services/deepseek_analyzer.py)

Logging calls are ignored; the `unload_model` calls are recorded as
events.  The LLM service of the analyzer is abstracted by its `chat`
function, as the claims quantify over gateway behaviour. -/

def analysisPromptPrefixS : String :=
  "You are a precise CV data extractor. Your job is to extract ONLY what exists in the CV text below.\n"
  ++ "\n"
  ++ "## RAW CV TEXT (THIS IS YOUR ONLY SOURCE OF TRUTH):\n"
  ++ "---\n"

def analysisPromptSuffixS : String :=
  "\n"
  ++ "---\n"
  ++ "\n"
  ++ "## CRITICAL ANTI-HALLUCINATION RULES:\n"
  ++ "1. **EXACT TEXT ONLY**: Copy titles, names, dates EXACTLY as written in the CV\n"
  ++ "2. **NO INVENTION**: Do NOT invent years of experience, degrees, or titles\n"
  ++ "3. **NO ASSUMPTIONS**: If the CV says \"Junior Game Developer\", output \"Junior Game Developer\" - NOT \"Senior\" or \"Lead\"\n"
  ++ "4. **DATES**: Use exact date ranges from CV. If CV says \"2023-Present\", use that exactly\n"
  ++ "5. **PROJECTS**: Use the EXACT project names (e.g., \"ROWA Space Station\", \"Untouchables\")\n"
  ++ "6. **VALIDATION**: If you\x27re unsure, set \"uncertain\": true and copy raw text\n"
  ++ "\n"
  ++ "## EXTRACTION TASK:\n"
  ++ "Extract the following into JSON. Use null for missing fields. DO NOT GUESS.\n"
  ++ "\n"
  ++ "\x60\x60\x60json\n"
  ++ "\x7b\n"
  ++ "    \"validation\": \x7b\n"
  ++ "        \"source\": \"Extracted from provided CV text only\",\n"
  ++ "        \"hallucination_check\": \"All data verified against source text\"\n"
  ++ "    \x7d,\n"
  ++ "    \"personal\": \x7b\n"
  ++ "        \"name\": \"EXACT full name from CV\",\n"
  ++ "        \"title\": \"EXACT job title from CV (e.g., \x27Junior Game Developer\x27 - no modifications)\",\n"
  ++ "        \"tagline\": \"Brief tagline based on actual CV content\",\n"
  ++ "        \"bio\": \"2-3 sentences using ONLY facts from CV\",\n"
  ++ "        \"email\": \"exact email or null\",\n"
  ++ "        \"phone\": \"exact phone or null\",\n"
  ++ "        \"location\": \"exact location or null\"\n"
  ++ "    \x7d,\n"
  ++ "    \"links\": \x7b\n"
  ++ "        \"linkedin\": \"exact LinkedIn URL or null\",\n"
  ++ "        \"github\": \"exact GitHub URL or null\",\n"
  ++ "        \"website\": \"exact website URL or null\",\n"
  ++ "        \"other\": [\"any other URLs found\"]\n"
  ++ "    \x7d,\n"
  ++ "    \"experience\": [\n"
  ++ "        \x7b\n"
  ++ "            \"company\": \"EXACT company name\",\n"
  ++ "            \"role\": \"EXACT job title from CV\",\n"
  ++ "            \"period\": \"EXACT date range from CV\",\n"
  ++ "            \"description\": \"Summary using ONLY CV content\",\n"
  ++ "            \"highlights\": [\"actual achievements from CV\"]\n"
  ++ "        \x7d\n"
  ++ "    ],\n"
  ++ "    \"projects\": [\n"
  ++ "        \x7b\n"
  ++ "            \"name\": \"EXACT project name (e.g., \x27ROWA Space Station\x27)\",\n"
  ++ "            \"description\": \"Description using ONLY CV content\",\n"
  ++ "            \"tech_stack\": [\"technologies mentioned in CV\"],\n"
  ++ "            \"link\": \"project URL if in CV, else null\",\n"
  ++ "            \"type\": \"Game/Web/App based on CV\"\n"
  ++ "        \x7d\n"
  ++ "    ],\n"
  ++ "    \"education\": [\n"
  ++ "        \x7b\n"
  ++ "            \"institution\": \"EXACT school name\",\n"
  ++ "            \"degree\": \"EXACT degree/program name\",\n"
  ++ "            \"period\": \"EXACT date range\"\n"
  ++ "        \x7d\n"
  ++ "    ],\n"
  ++ "    \"skills\": \x7b\n"
  ++ "        \"languages\": [\"programming languages from CV\"],\n"
  ++ "        \"frameworks\": [\"frameworks from CV\"],\n"
  ++ "        \"tools\": [\"tools from CV\"],\n"
  ++ "        \"specialties\": [\"specialties from CV\"]\n"
  ++ "    \x7d,\n"
  ++ "    \"certifications\": [\"EXACT certification names\"],\n"
  ++ "    \"languages_spoken\": [\"languages from CV\"]\n"
  ++ "\x7d\n"
  ++ "\x60\x60\x60\n"
  ++ "\n"
  ++ "IMPORTANT: Output ONLY the JSON. No explanations. Use EXACT text from CV."

def aosCssFixS : String :=
  "\n"
  ++ "    <style>\n"
  ++ "        /* AOS Visibility Fallback */\n"
  ++ "        [data-aos] \x7b\n"
  ++ "            opacity: 1 !important;\n"
  ++ "            transform: none !important;\n"
  ++ "        \x7d\n"
  ++ "        .aos-init [data-aos] \x7b\n"
  ++ "            opacity: 0;\n"
  ++ "            transform: translateY(20px);\n"
  ++ "        \x7d\n"
  ++ "        .aos-init .aos-animate \x7b\n"
  ++ "            opacity: 1 !important;\n"
  ++ "            transform: none !important;\n"
  ++ "        \x7d\n"
  ++ "    </style>\n"
  ++ "    "

def aosJsFixS : String :=
  "\n"
  ++ "    <script>\n"
  ++ "        window.addEventListener(\x27load\x27, function() \x7b\n"
  ++ "            if (typeof lucide !== \x27undefined\x27) lucide.createIcons();\n"
  ++ "            if (typeof AOS !== \x27undefined\x27) \x7b\n"
  ++ "                AOS.init(\x7b duration: 800, once: true, offset: 50 \x7d);\n"
  ++ "            \x7d\n"
  ++ "            setTimeout(function() \x7b\n"
  ++ "                document.querySelectorAll(\x27[data-aos]\x27).forEach(function(el) \x7b\n"
  ++ "                    el.classList.add(\x27aos-animate\x27);\n"
  ++ "                \x7d);\n"
  ++ "            \x7d, 1000);\n"
  ++ "        \x7d);\n"
  ++ "    </script>\n"
  ++ "    "

def genPromptP1S : String :=
  "You are an elite frontend developer. Generate a COMPLETE, PRODUCTION-READY index.html portfolio.\n"
  ++ "\n"

def genPromptP2S : String :=
  "\n"
  ++ "\n"
  ++ "## ORIGINAL CV TEXT (FOR VERIFICATION - USE EXACT DATA):\n"
  ++ "\x60\x60\x60\n"

def genPromptP3S : String :=
  "\n"
  ++ "\x60\x60\x60\n"
  ++ "\n"
  ++ "## CRITICAL: AOS VISIBILITY FIX\n"
  ++ "The page MUST NOT be black. Include these MANDATORY fixes:\n"
  ++ "\n"
  ++ "### 1. CSS Fallback (in <style> tag):\n"
  ++ "\x60\x60\x60css\n"
  ++ "/* AOS Fallback - Prevent black screen */\n"
  ++ "[data-aos] \x7b\n"
  ++ "    opacity: 1 !important;\n"
  ++ "    transform: none !important;\n"
  ++ "    transition: opacity 0.6s ease, transform 0.6s ease;\n"
  ++ "\x7d\n"
  ++ ".aos-animate \x7b\n"
  ++ "    pointer-events: auto;\n"
  ++ "\x7d\n"
  ++ "/* Ensure visibility before JS loads */\n"
  ++ "body \x7b\n"
  ++ "    opacity: 1;\n"
  ++ "\x7d\n"
  ++ "\x60\x60\x60\n"
  ++ "\n"
  ++ "### 2. Proper Script Loading (at end of body):\n"
  ++ "\x60\x60\x60html\n"
  ++ "<script src=\"https://unpkg.com/aos@2.3.1/dist/aos.js\"></script>\n"
  ++ "<script src=\"https://unpkg.com/lucide@latest/dist/umd/lucide.js\"></script>\n"
  ++ "<script>\n"
  ++ "    window.addEventListener(\x27load\x27, function() \x7b\n"
  ++ "        // Initialize Lucide icons\n"
  ++ "        if (typeof lucide !== \x27undefined\x27) \x7b\n"
  ++ "            lucide.createIcons();\n"
  ++ "        \x7d\n"
  ++ "        \n"
  ++ "        // Initialize AOS with safe settings\n"
  ++ "        if (typeof AOS !== \x27undefined\x27) \x7b\n"
  ++ "            AOS.init(\x7b\n"
  ++ "                duration: 800,\n"
  ++ "                once: true,\n"
  ++ "                offset: 50,\n"
  ++ "                disable: \x27mobile\x27\n"
  ++ "            \x7d);\n"
  ++ "        \x7d\n"
  ++ "        \n"
  ++ "        // Fallback: ensure all elements visible after 1 second\n"
  ++ "        setTimeout(function() \x7b\n"
  ++ "            document.querySelectorAll(\x27[data-aos]\x27).forEach(function(el) \x7b\n"
  ++ "                el.classList.add(\x27aos-animate\x27);\n"
  ++ "            \x7d);\n"
  ++ "        \x7d, 1000);\n"
  ++ "    \x7d);\n"
  ++ "</script>\n"
  ++ "\x60\x60\x60\n"
  ++ "\n"
  ++ "## TECHNICAL STACK:\n"
  ++ "- Tailwind CSS: <script src=\"https://cdn.tailwindcss.com\"></script>\n"
  ++ "- AOS.js: <link href=\"https://unpkg.com/aos@2.3.1/dist/aos.css\" rel=\"stylesheet\">\n"
  ++ "- Lucide Icons: Use <i data-lucide=\"icon-name\"></i>\n"
  ++ "- Google Fonts: Inter + Space Grotesk\n"
  ++ "\n"
  ++ "## DESIGN: VERCEL-STYLE BENTO GRID\n"
  ++ "\n"
  ++ "### Layout Structure:\n"
  ++ "\x60\x60\x60html\n"
  ++ "<div class=\"grid grid-cols-12 gap-4 p-4\">\n"
  ++ "    <!-- Hero: spans full width -->\n"
  ++ "    <div class=\"col-span-12\">...</div>\n"
  ++ "    \n"
  ++ "    <!-- About: 8 cols, Skills: 4 cols -->\n"
  ++ "    <div class=\"col-span-12 md:col-span-8\">...</div>\n"
  ++ "    <div class=\"col-span-12 md:col-span-4\">...</div>\n"
  ++ "    \n"
  ++ "    <!-- Projects: varying spans (6, 4, 8, etc.) -->\n"
  ++ "    <div class=\"col-span-12 md:col-span-6\">...</div>\n"
  ++ "    <div class=\"col-span-12 md:col-span-6\">...</div>\n"
  ++ "</div>\n"
  ++ "\x60\x60\x60\n"
  ++ "\n"
  ++ "### Theme: PITCH BLACK + EMERALD\n"
  ++ "- Background: #000000 (pure black)\n"
  ++ "- Cards: bg-white/5 backdrop-blur-md border border-white/10 rounded-2xl\n"
  ++ "- Text: text-white, text-gray-400\n"
  ++ "- Accent: text-emerald-400, bg-emerald-500/10, border-emerald-500/30\n"
  ++ "- Hover: hover:bg-white/10 hover:border-emerald-500/50\n"
  ++ "\n"
  ++ "### Card Style:\n"
  ++ "\x60\x60\x60html\n"
  ++ "<div class=\"bg-white/5 backdrop-blur-md border border-white/10 rounded-2xl p-6 \n"
  ++ "            hover:bg-white/10 hover:border-emerald-500/50 transition-all duration-300\"\n"
  ++ "     data-aos=\"fade-up\">\n"
  ++ "    <!-- content -->\n"
  ++ "</div>\n"
  ++ "\x60\x60\x60\n"
  ++ "\n"
  ++ "## SECTIONS:\n"
  ++ "1. **Hero**: Name (large), exact title from CV, tagline, social icons\n"
  ++ "2. **About**: Bio card (col-span-8)\n"
  ++ "3. **Skills**: Grouped skill tags (col-span-4)\n"
  ++ "4. **Projects**: Bento cards with EXACT project names, descriptions, tech stacks\n"
  ++ "5. **Experience**: Timeline with EXACT roles and dates\n"
  ++ "6. **Contact**: Footer with real links\n"
  ++ "\n"
  ++ "## ABSOLUTE RULES:\n"
  ++ "1. Use ONLY the exact data provided - NO PLACEHOLDERS\n"
  ++ "2. NO <img> tags - Lucide icons only\n"
  ++ "3. If title is \"Junior Game Developer\", use that EXACTLY\n"
  ++ "4. All links must be real URLs from the data\n"
  ++ "5. Include the AOS visibility fixes EXACTLY as shown above\n"
  ++ "6. Start with <!DOCTYPE html>, end with </html>\n"
  ++ "\n"
  ++ "Generate the COMPLETE HTML now."


structure DeepSeekAnalyzer where
  chat : ChatFun
  model : Str := "deepseek-r1:7b".toList
  temperature : Rat := 3/10

/-- Model of `DeepSeekAnalyzer._build_prompt`. -/
def DeepSeekAnalyzer.build_prompt (cv_text : Str) : Str :=
  analysisPromptPrefixS.toList ++ cv_text ++ analysisPromptSuffixS.toList

/-- Truthiness of `parsed_data : Optional[dict]`: the Python
`if not parsed_data:` branch is taken for `None` and for an empty
dictionary. -/
def parsedTruthy : Option JValue → Bool
  | some (.jobj fs) => !fs.isEmpty
  | some _ => true
  | none => false

/-- Model of `DeepSeekAnalyzer.analyze`: the trace of `unload_model` calls
together with either the produced record or the message of the raised
`AnalysisError`. -/
def DeepSeekAnalyzer.analyze (a : DeepSeekAnalyzer) (cv_text : Str) :
    List LLMEvent × Except Str CVData :=
  let prompt := DeepSeekAnalyzer.build_prompt cv_text
  let config : LLMConfig := { temperature := a.temperature, context_window := 8192 }
  let response := a.chat [{ role := userRole, content := prompt }] a.model config
  if response.success then
    let parsed := extract_json response.content
    let cv_data :=
      if parsedTruthy parsed then
        CVData.from_dict (parsed.getD .jnull) cv_text
      else
        { raw_analysis := some response.content, original_cv_text := cv_text }
    ([.unload a.model], .ok cv_data)
  else
    ([.unload a.model], .error (errPrefixS.toList ++ pyStrOfOpt response.error))

/-! ## `QwenPortfolioGenerator` (src/services/qwen_portfolio_generator.py) -/

def markerAos : Str := "aos-animate".toList
def headClose : Str := "</head>".toList
def bodyClose : Str := "</body>".toList
def nlStr : Str := "\n".toList

def aosCssFix : Str := aosCssFixS.toList
def aosJsFix : Str := aosJsFixS.toList

/-- Python `str.replace(old, new)` for non-empty `old`: replace all
non-overlapping occurrences, scanning left to right.  Fuel-indexed
(structural, so that it reduces in the kernel); a fuel of `s.length` is
sufficient since each step consumes at least one character. -/
def replaceAllF : Nat → Str → Str → Str → Str
  | 0, s, _, _ => s
  | fuel + 1, s, p, r =>
    match s with
    | [] => []
    | c :: t =>
      if p.isPrefixOf (c :: t) then r ++ replaceAllF fuel ((c :: t).drop p.length) p r
      else c :: replaceAllF fuel t p r

/-- Python `str.replace` (the degenerate empty pattern, which Python
treats as inserting between every character, is never used by the
source and is mapped to the identity). -/
def pyReplace (s p r : Str) : Str :=
  if p.isEmpty then s else replaceAllF s.length s p r

/-- Model of `QwenPortfolioGenerator.apply_fixes`. -/
def apply_fixes (html : Str) : Str :=
  let html1 :=
    if pyContains headClose html then pyReplace html headClose (aosCssFix ++ nlStr ++ headClose)
    else html
  let html2 :=
    if pyContains bodyClose html1 then pyReplace html1 bodyClose (aosJsFix ++ nlStr ++ bodyClose)
    else html1
  html2

def dataSectionRawHeaderS : String := "## ANALYZED CV DATA:\n"
def dataSectionJsonHeaderS : String := "## PORTFOLIO DATA (JSON):\n\x60\x60\x60json\n"
def dataSectionJsonTrailerS : String := "\n\x60\x60\x60"

/-- Truthiness of `cv_data.raw_analysis` in `if cv_data.raw_analysis:`
(`None` and the empty string are falsy). -/
def rawAnalysisTruthy (cv : CVData) : Bool :=
  match cv.raw_analysis with
  | some s => !s.isEmpty
  | none => false

/-- The `data_section` of `QwenPortfolioGenerator._build_prompt`. -/
def buildDataSection (cv : CVData) : Str :=
  if rawAnalysisTruthy cv then
    dataSectionRawHeaderS.toList ++ (cv.raw_analysis.getD [])
  else
    dataSectionJsonHeaderS.toList ++ jsonDumps cv.to_dict ++ dataSectionJsonTrailerS.toList

/-- Model of `QwenPortfolioGenerator._build_prompt`. -/
def QwenPortfolioGenerator.build_prompt (cv : CVData) (original_cv_text : Str) : Str :=
  genPromptP1S.toList ++ buildDataSection cv ++ genPromptP2S.toList
    ++ pySlice 2000 original_cv_text ++ genPromptP3S.toList

structure QwenPortfolioGenerator where
  chat : ChatFun
  model : Str := "qwen2.5-coder:14b".toList
  temperature : Rat := 2/10

/-- Model of `QwenPortfolioGenerator.generate`: the trace of `unload_model` calls
and either the final markup or the message of the raised
`GenerationError`.  The `startswith("<!doctype")` check of the source
only emits a log line and is omitted. -/
def QwenPortfolioGenerator.generate (g : QwenPortfolioGenerator) (cv_data : CVData)
    (original_cv_text : Str := []) : List LLMEvent × Except Str Str :=
  let orig := if original_cv_text.isEmpty then cv_data.original_cv_text else original_cv_text
  let prompt := QwenPortfolioGenerator.build_prompt cv_data orig
  let config : LLMConfig :=
    { temperature := g.temperature, context_window := 8192, max_tokens := 4096 }
  let response := g.chat [{ role := userRole, content := prompt }] g.model config
  if response.success then
    let html0 := extract_html response.content
    let html1 :=
      if pyContains markerAos (pyLower html0) then html0
      else apply_fixes html0
    ([.unload g.model], .ok html1)
  else
    ([.unload g.model], .error (errPrefixS.toList ++ pyStrOfOpt response.error))

/-! ## `OllamaService` (src/services/ollama_service.py)

The external `ollama` client call either returns a response object or
raises; claims quantify over both behaviours.  For `generate` the
response is read as `response.get("response", "")`, for `chat` as
`response.get("message", {}).get("content", "")`; the optional fields
are modelled by `Option`.  The `config or LLMConfig()` defaulting only
affects the options dictionary sent to the runtime, which the abstract
outcome already absorbs. -/

inductive RuntimeOutcome (α : Type) where
  | ok (resp : α)
  | raised (msg : Str)

def OllamaService.generate (runtime : RuntimeOutcome (Option Str)) (model : Str) :
    LLMResponse :=
  match runtime with
  | .ok resp => { content := resp.getD [], model := model, success := true }
  | .raised e => { content := [], model := model, success := false, error := some e }

def OllamaService.chat (runtime : RuntimeOutcome (Option (Option Str))) (model : Str) :
    LLMResponse :=
  match runtime with
  | .ok resp => { content := (resp.getD none).getD [], model := model, success := true }
  | .raised e => { content := [], model := model, success := false, error := some e }

/-! ## `CVPortfolioPipeline` (src/pipeline/cv_portfolio_pipeline.py)

The collaborators of the container are abstracted by their behaviours: each
stage call either returns a value or raises (`RuntimeOutcome`).  Stage
invocations, file saves and UI dialogs are recorded as events (the
dialog text, only logged to the user, is elided); print/log calls are
ignored.  `datetime.now()` is abstracted by a timestamp string and
`pdf_path.stem` by a path-to-stem function. -/

inductive PEvent where
  | selectFile
  | extractText
  | saveRawText
  | analyzeCv
  | saveJsonDump
  | generateHtml
  | savePortfolio
  | saveIndex
  | showSuccess
  | showError
deriving DecidableEq

structure PipelineBehaviors where
  select_file : RuntimeOutcome (Option Str)
  extract : Str → RuntimeOutcome Str
  save : Str → Str → Str → RuntimeOutcome Str
  analyze : Str → RuntimeOutcome (Option CVData)
  generate : CVData → RuntimeOutcome Str
  stem : Str → Str
  timestamp : Str

def txtExt : Str := "txt".toList
def jsonExt : Str := "json".toList
def htmlExt : Str := "html".toList
def rawTextName : Str := "cv_raw_text".toList
def extractedDataName : Str := "cv_extracted_data".toList
def indexName : Str := "index".toList

/-- The timestamped output name `f"{base_name}_portfolio_{timestamp}"`. -/
def portfolioName (stem timestamp : Str) : Str :=
  stem ++ "_portfolio_".toList ++ timestamp

/-- The body of `run` inside its `try`: the event trace and either the
normal result (`none` models the silent early `return None` exits) or
the message of a raised exception. -/
def runBody (b : PipelineBehaviors) : List PEvent × Except Str (Option Str) :=
  match b.select_file with
  | .raised e => ([.selectFile], .error e)
  | .ok none => ([.selectFile], .ok none)
  | .ok (some pdf_path) =>
    match b.extract pdf_path with
    | .raised e => ([.selectFile, .extractText], .error e)
    | .ok cv_text =>
      if (pyStrip cv_text).isEmpty then ([.selectFile, .extractText], .ok none)
      else
        match b.save cv_text rawTextName txtExt with
        | .raised e => ([.selectFile, .extractText, .saveRawText], .error e)
        | .ok _ =>
          match b.analyze cv_text with
          | .raised e =>
            ([.selectFile, .extractText, .saveRawText, .analyzeCv], .error e)
          | .ok none =>
            ([.selectFile, .extractText, .saveRawText, .analyzeCv], .ok none)
          | .ok (some cv_data) =>
            match b.save (jsonDumps cv_data.to_dict) extractedDataName jsonExt with
            | .raised e =>
              ([.selectFile, .extractText, .saveRawText, .analyzeCv, .saveJsonDump],
               .error e)
            | .ok _ =>
              match b.generate cv_data with
              | .raised e =>
                ([.selectFile, .extractText, .saveRawText, .analyzeCv, .saveJsonDump,
                  .generateHtml], .error e)
              | .ok html_content =>
                if html_content.isEmpty then
                  ([.selectFile, .extractText, .saveRawText, .analyzeCv, .saveJsonDump,
                    .generateHtml], .ok none)
                else
                  match b.save html_content
                      (portfolioName (b.stem pdf_path) b.timestamp) htmlExt with
                  | .raised e =>
                    ([.selectFile, .extractText, .saveRawText, .analyzeCv, .saveJsonDump,
                      .generateHtml, .savePortfolio], .error e)
                  | .ok output_path =>
                    match b.save html_content indexName htmlExt with
                    | .raised e =>
                      ([.selectFile, .extractText, .saveRawText, .analyzeCv, .saveJsonDump,
                        .generateHtml, .savePortfolio, .saveIndex], .error e)
                    | .ok _ =>
                      ([.selectFile, .extractText, .saveRawText, .analyzeCv, .saveJsonDump,
                        .generateHtml, .savePortfolio, .saveIndex, .showSuccess],
                       .ok (some output_path))

/-- Model of `CVPortfolioPipeline.run`: the single top-level `except` handler
shows the error dialog and returns `None`. -/
def run (b : PipelineBehaviors) : List PEvent × Option Str :=
  match runBody b with
  | (evs, .ok res) => (evs, res)
  | (evs, .error _) => (evs ++ [.showError], none)

/-! ## Concrete inputs used by claim witnesses and counterexamples -/

def janeDoe : Str := "Jane Doe".toList

def c1TailS : String :=
  "\n\x60\x60\x60json\n\x7b \"personal\": \x7b \"name\": \"Jane Doe\" \x7d \x7d\n\x60\x60\x60"

def c1Tail : Str := c1TailS.toList

/-- A reasoning-preamble-wrapped fenced JSON response. -/
def c1Input (reasoning : Str) : Str :=
  thinkOpen ++ (reasoning ++ (thinkClose ++ c1Tail))

def c1Obj : JValue := .jobj [(kPersonal, .jobj [(kName, .jstr janeDoe)])]

def c1Reasoning : Str := "Let me read the CV carefully.".toList

def mdl : Str := "m".toList
def xStr : Str := "x".toList
def cStr : Str := "c".toList
def boomStr : Str := "boom".toList

def c2NoTags : Str := "plain text".toList
def c2Marked : Str := "aos-animate</head>x".toList

def c3NoBrace : Str := "no object literal here".toList

def c4Plain : Str := "  just a plain reply  ".toList

def c6ContentB : Str :=
  ("\x7b\"raw_analysis\": \"x\", \"certifications\": [\"c\"]\x7d").toList

def c9Behaviors : PipelineBehaviors :=
  { select_file := .ok none
  , extract := fun _ => .ok []
  , save := fun _ _ _ => .ok []
  , analyze := fun _ => .ok none
  , generate := fun _ => .ok []
  , stem := fun s => s
  , timestamp := [] }

/-- A gateway whose calls always fail. -/
def failChat : ChatFun :=
  fun _ _ _ => { content := [], model := [], success := false, error := some boomStr }

def c7CvParsed : CVData :=
  { skills := { languages := [cStr], frameworks := [xStr] } }

def c7CvRaw : CVData := { raw_analysis := some xStr }

def c10Cv : CVData :=
  { personal := { name := janeDoe, email := some xStr }
  , links := { other := [cStr] }
  , experience := [{ company := cStr, highlights := [xStr] }]
  , projects := [{ name := xStr, link := some cStr }]
  , education := [{ degree := cStr }]
  , skills := { languages := [cStr] }
  , certifications := [xStr]
  , languages_spoken := [cStr] }

/-! # Theorems

First, general lemmas about the string machinery; then, one theorem per
claim (with its witness or counterexample). -/

theorem pyContains_iff (sub : Str) : ∀ s : Str, pyContains sub s = true ↔ sub <:+: s
  | [] => by
    simp only [pyContains, List.isEmpty_iff]
    constructor
    · rintro rfl
      exact List.nil_infix
    · intro h
      exact List.eq_nil_of_infix_nil h
  | c :: t => by
    rw [show pyContains sub (c :: t) = (sub.isPrefixOf (c :: t) || pyContains sub t) from rfl]
    rw [Bool.or_eq_true, pyContains_iff sub t, List.isPrefixOf_iff_prefix, List.infix_cons_iff]

theorem replaceAllF_cons (fuel : Nat) (c : Char) (t p r : Str) :
    replaceAllF (fuel + 1) (c :: t) p r =
      if p.isPrefixOf (c :: t) then r ++ replaceAllF fuel ((c :: t).drop p.length) p r
      else c :: replaceAllF fuel t p r := rfl

/-- The replacement text occurs in the output of `replaceAllF` whenever
the (non-empty) pattern occurs in the input. -/
theorem replaceAllF_repl (p r : Str) (hp : p ≠ []) :
    ∀ fuel s, s.length ≤ fuel → p <:+: s → r <:+: replaceAllF fuel s p r := by
  intro fuel
  induction fuel with
  | zero =>
    intro s hs hinf
    have hs0 : s = [] := List.eq_nil_of_length_eq_zero (Nat.le_zero.mp hs)
    subst hs0
    exact absurd (List.eq_nil_of_infix_nil hinf) hp
  | succ fuel ih =>
    intro s hs hinf
    match s with
    | [] => exact absurd (List.eq_nil_of_infix_nil hinf) hp
    | c :: t =>
      rw [replaceAllF_cons]
      cases hb : p.isPrefixOf (c :: t) with
      | true =>
        rw [if_pos rfl]
        exact (List.prefix_append r _).isInfix
      | false =>
        rw [if_neg (by simp)]
        have hpt : p <:+: t := by
          rcases List.infix_cons_iff.mp hinf with h | h
          · exact absurd ( List.isPrefixOf_iff_prefix.mpr h) (by simp [hb])
          · exact h
        have hlen : t.length ≤ fuel := by
          simp only [List.length_cons] at hs
          omega
        exact (ih t hlen hpt).trans (List.suffix_cons c _).isInfix

/-- Helper for occurrence preservation: a pending suffix `q.drop k` of a
preserved string survives one character at a time, since no pattern match
can begin strictly inside an occurrence of `q`. -/
theorem replaceAllF_keep_pre (p q r : Str)
    (hqp : ¬ q <:+: p) (hpq : ¬ p <:+: q)
    (h4 : ∀ j, j < q.length → 0 < j → ¬ (q.drop j <+: p)) :
    ∀ fuel s k, s.length ≤ fuel → k < q.length → q.drop k <+: s →
      q.drop k <+: replaceAllF fuel s p r := by
  intro fuel
  induction fuel with
  | zero =>
    intro s k hs hk hpre
    have hs0 : s = [] := List.eq_nil_of_length_eq_zero (Nat.le_zero.mp hs)
    subst hs0
    have := List.drop_eq_nil_iff.mp (List.prefix_nil.mp hpre)
    omega
  | succ fuel ih =>
    intro s k hs hk hpre
    match s with
    | [] =>
      have := List.drop_eq_nil_iff.mp (List.prefix_nil.mp hpre)
      omega
    | c :: t =>
      have hnb : p.isPrefixOf (c :: t) = false := by
        cases hb : p.isPrefixOf (c :: t) with
        | false => rfl
        | true =>
          exfalso
          have hp2 := List.isPrefixOf_iff_prefix.mp hb
          rcases List.prefix_or_prefix_of_prefix hp2 hpre with h | h
          · exact hpq (h.isInfix.trans (List.drop_suffix k q).isInfix)
          · rcases Nat.eq_zero_or_pos k with rfl | hk0
            · rw [List.drop_zero] at h
              exact hqp h.isInfix
            · exact h4 k hk hk0 h
      rw [replaceAllF_cons, if_neg (by simp [hnb])]
      have hd : List.drop k q = q[k] :: List.drop (k + 1) q := List.drop_eq_getElem_cons hk
      rw [hd] at hpre ⊢
      obtain ⟨hc, hrest⟩ := List.cons_prefix_cons.mp hpre
      rcases Nat.lt_or_ge (k + 1) q.length with hlt | hge
      · have hlen : t.length ≤ fuel := by
          simp only [List.length_cons] at hs
          omega
        exact List.cons_prefix_cons.mpr ⟨hc, ih t (k + 1) hlen hlt hrest⟩
      · rw [List.drop_eq_nil_iff.mpr hge]
        exact List.cons_prefix_cons.mpr ⟨hc, List.nil_prefix⟩

/-- Occurrence preservation: an occurrence of `q` survives
`replaceAllF _ _ p r` when `q` neither contains nor is contained in `p`
and no boundary overlap between `p` and `q` is possible. -/
theorem replaceAllF_keep (p q r : Str) (hp : p ≠ [])
    (hqp : ¬ q <:+: p) (hpq : ¬ p <:+: q)
    (h3 : ∀ i, i < p.length → ¬ (p.drop i <+: q))
    (h4 : ∀ j, j < q.length → 0 < j → ¬ (q.drop j <+: p)) :
    ∀ fuel s, s.length ≤ fuel → q <:+: s → q <:+: replaceAllF fuel s p r := by
  have hq : q ≠ [] := by
    rintro rfl
    exact hqp List.nil_infix
  intro fuel
  induction fuel with
  | zero =>
    intro s hs hinf
    have hs0 : s = [] := List.eq_nil_of_length_eq_zero (Nat.le_zero.mp hs)
    subst hs0
    exact absurd (List.eq_nil_of_infix_nil hinf) hq
  | succ fuel ih =>
    intro s hs hinf
    match s with
    | [] => exact absurd (List.eq_nil_of_infix_nil hinf) hq
    | c :: t =>
      cases hb : p.isPrefixOf (c :: t) with
      | false =>
        rcases List.infix_cons_iff.mp hinf with h | h
        · have h0 : q.drop 0 <+: (c :: t) := by
            rw [List.drop_zero]
            exact h
          have := replaceAllF_keep_pre p q r hqp hpq h4 (fuel + 1) (c :: t) 0 hs
            (List.length_pos.mpr hq) h0
          rw [List.drop_zero] at this
          exact this.isInfix
        · have hlen : t.length ≤ fuel := by
            simp only [List.length_cons] at hs
            omega
          rw [replaceAllF_cons, if_neg (by simp [hb])]
          exact (ih t hlen h).trans (List.suffix_cons c _).isInfix
      | true =>
        obtain ⟨s', hs'⟩ := List.isPrefixOf_iff_prefix.mp hb
        rw [replaceAllF_cons, if_pos hb]
        have hdrop : (c :: t).drop p.length = s' := by
          rw [← hs', List.drop_left]
        rw [hdrop]
        have hinf' : q <:+: s' := by
          obtain ⟨u, v, huv⟩ := hinf
          rw [← hs'] at huv
          rcases le_or_lt p.length u.length with hle | hlt
          · have hu : u <+: p ++ s' := ⟨q ++ v, by rw [← List.append_assoc, huv]⟩
            have hpu : p <+: u :=
              List.prefix_of_prefix_length_le (List.prefix_append p s') hu hle
            obtain ⟨u', hu'⟩ := hpu
            refine ⟨u', v, ?_⟩
            have : p ++ (u' ++ q ++ v) = p ++ s' := by
              rw [← huv, ← hu']
              simp [List.append_assoc]
            exact List.append_cancel_left this
          · have hu : u <+: p ++ s' := ⟨q ++ v, by rw [← List.append_assoc, huv]⟩
            have hup : u <+: p :=
              List.prefix_of_prefix_length_le hu (List.prefix_append p s') (le_of_lt hlt)
            have hw : u ++ p.drop u.length = p := List.prefix_iff_eq_append.mp hup
            have hqv : q ++ v = p.drop u.length ++ s' := by
              have : u ++ (q ++ v) = u ++ (p.drop u.length ++ s') := by
                rw [← List.append_assoc, huv, ← List.append_assoc, hw]
              exact List.append_cancel_left this
            have hq1 : q <+: p.drop u.length ++ s' := ⟨v, by rw [← hqv]⟩
            have hw1 : p.drop u.length <+: p.drop u.length ++ s' := List.prefix_append _ _
            rcases List.prefix_or_prefix_of_prefix hq1 hw1 with h | h
            · exact absurd (h.isInfix.trans (List.drop_suffix u.length p).isInfix) hqp
            · exact absurd h (h3 u.length hlt)
        have hlen : s'.length ≤ fuel := by
          have := congrArg List.length hs'
          simp only [List.length_append, List.length_cons] at this hs
          have hp1 : 0 < p.length := List.length_pos_of_ne_nil hp
          omega
        exact (ih s' hlen hinf').trans (List.suffix_append r _).isInfix

theorem dropThroughClose_cons (c : Char) (t : Str) :
    dropThroughClose (c :: t) =
      if thinkClose.isPrefixOf (c :: t) then some ((c :: t).drop 8)
      else dropThroughClose t := rfl

theorem removeThinkF_cons (fuel : Nat) (c : Char) (t : Str) :
    removeThinkF (fuel + 1) (c :: t) =
      if thinkOpen.isPrefixOf (c :: t) then
        match dropThroughClose ((c :: t).drop 7) with
        | some rest => removeThinkF fuel rest
        | none => c :: removeThinkF fuel t
      else c :: removeThinkF fuel t := rfl

/-- The `</think>` closer cannot overlap itself (no proper non-empty
suffix of it is one of its prefixes). -/
theorem thinkClose_selffree : ∀ j, j < thinkClose.length → 0 < j →
    ¬ (thinkClose.drop j <+: thinkClose) := by decide

/-- Finding the first `</think>`: when the text is `rbody ++ </think> ++ t`
with no occurrence inside `rbody`, the scan lands exactly on the appended
closer. -/
theorem dropThroughClose_clean :
    ∀ rbody t : Str, ¬ thinkClose <:+: rbody →
      dropThroughClose (rbody ++ (thinkClose ++ t)) = some t := by
  intro rbody
  induction rbody with
  | nil =>
    intro t _
    rw [List.nil_append]
    have h1 : thinkClose.isPrefixOf (thinkClose ++ t) = true :=
      List.isPrefixOf_iff_prefix.mpr (List.prefix_append _ _)
    have h2 : thinkClose ++ t = '<' :: ("/think>".toList ++ t) := rfl
    rw [h2, dropThroughClose_cons, ← h2, if_pos h1]
    have h3 : (thinkClose ++ t).drop 8 = t := List.drop_left thinkClose t
    rw [h3]
  | cons c rb ih =>
    intro t hcl
    have hnp : thinkClose.isPrefixOf ((c :: rb) ++ (thinkClose ++ t)) = false := by
      cases hb : thinkClose.isPrefixOf ((c :: rb) ++ (thinkClose ++ t)) with
      | false => rfl
      | true =>
        exfalso
        have hp := List.isPrefixOf_iff_prefix.mp hb
        have hpre2 : (c :: rb) <+: (c :: rb) ++ (thinkClose ++ t) := List.prefix_append _ _
        rcases le_or_lt thinkClose.length (c :: rb).length with hle | hlt
        · exact hcl (List.prefix_of_prefix_length_le hp hpre2 hle).isInfix
        · have hcp : (c :: rb) <+: thinkClose :=
            List.prefix_of_prefix_length_le hpre2 hp (le_of_lt hlt)
          have hw : (c :: rb) ++ thinkClose.drop (c :: rb).length = thinkClose :=
            List.prefix_iff_eq_append.mp hcp
          have hq : thinkClose.drop (c :: rb).length <+: thinkClose ++ t := by
            have : (c :: rb) ++ thinkClose.drop (c :: rb).length <+:
                (c :: rb) ++ (thinkClose ++ t) := by
              rw [hw]
              exact hp
            exact (List.prefix_append_right_inj (c :: rb)).mp this
          have hql : thinkClose.drop (c :: rb).length <+: thinkClose := by
            refine List.prefix_of_prefix_length_le hq (List.prefix_append _ _) ?_
            simp only [List.length_drop]
            omega
          exact thinkClose_selffree (c :: rb).length hlt (by simp) hql
    have e1 : (c :: rb) ++ (thinkClose ++ t) = c :: (rb ++ (thinkClose ++ t)) := rfl
    rw [e1] at hnp
    rw [e1, dropThroughClose_cons, if_neg (by simp [hnp])]
    refine ih t ?_
    intro h
    exact hcl (h.trans (List.suffix_cons c rb).isInfix)

/-- Identity case: `removeThinkF` keeps text containing no `<think>` tag. -/
theorem removeThinkF_id : ∀ fuel s, ¬ thinkOpen <:+: s → removeThinkF fuel s = s := by
  intro fuel
  induction fuel with
  | zero => intro s _; rfl
  | succ fuel ih =>
    intro s hs
    match s with
    | [] => rfl
    | c :: t =>
      have hnp : thinkOpen.isPrefixOf (c :: t) = false := by
        cases hb : thinkOpen.isPrefixOf (c :: t) with
        | false => rfl
        | true => exact absurd ( List.isPrefixOf_iff_prefix.mp hb).isInfix hs
      rw [removeThinkF_cons, if_neg (by simp [hnp])]
      rw [ih t (fun h => hs (h.trans (List.suffix_cons c t).isInfix))]

/-- Removing one leading reasoning block. -/
theorem removeThinkF_block (fuel : Nat) (rbody t : Str) (h : ¬ thinkClose <:+: rbody) :
    removeThinkF (fuel + 1) (thinkOpen ++ (rbody ++ (thinkClose ++ t))) =
      removeThinkF fuel t := by
  have e1 : thinkOpen ++ (rbody ++ (thinkClose ++ t))
      = '<' :: ("think>".toList ++ (rbody ++ (thinkClose ++ t))) := rfl
  have hb : thinkOpen.isPrefixOf (thinkOpen ++ (rbody ++ (thinkClose ++ t))) = true :=
    List.isPrefixOf_iff_prefix.mpr (List.prefix_append _ _)
  rw [e1] at hb
  rw [e1, removeThinkF_cons, if_pos hb]
  have e2 : ('<' :: ("think>".toList ++ (rbody ++ (thinkClose ++ t)))).drop 7
      = rbody ++ (thinkClose ++ t) := rfl
  rw [e2, dropThroughClose_clean rbody t h]

/-- Behaviour of `removeThink` on a reasoning-preamble-wrapped text: the preamble is
discarded and the (tag-free) remainder kept. -/
theorem removeThink_block (rbody t : Str) (hb : ¬ thinkClose <:+: rbody)
    (ht : ¬ thinkOpen <:+: t) :
    removeThink (thinkOpen ++ (rbody ++ (thinkClose ++ t))) = t := by
  unfold removeThink
  have hl : (thinkOpen ++ (rbody ++ (thinkClose ++ t))).length
      = ((thinkOpen ++ (rbody ++ (thinkClose ++ t))).length - 1) + 1 := by
    have h7 : thinkOpen.length = 7 := rfl
    simp only [List.length_append]
    omega
  rw [hl, removeThinkF_block _ _ _ hb, removeThinkF_id _ t ht]

theorem dropThroughClose_suffix : ∀ s r : Str, dropThroughClose s = some r → r <:+ s := by
  intro s
  induction s with
  | nil => intro r h; simp [dropThroughClose] at h
  | cons c t ih =>
    intro r h
    rw [dropThroughClose_cons] at h
    split at h
    · cases h
      exact List.drop_suffix 8 (c :: t)
    · exact (ih r h).trans (List.suffix_cons c t)

theorem mem_removeThinkF : ∀ fuel s (a : Char), a ∈ removeThinkF fuel s → a ∈ s := by
  intro fuel
  induction fuel with
  | zero => intro s a h; exact h
  | succ fuel ih =>
    intro s a h
    match s with
    | [] => exact h
    | c :: t =>
      rw [removeThinkF_cons] at h
      split at h
      · split at h
        · next rest heq =>
          have h1 := ih rest a h
          have h2 := (dropThroughClose_suffix _ _ heq).subset h1
          exact List.drop_subset 7 (c :: t) h2
        · rcases List.mem_cons.mp h with rfl | h2
          · exact List.mem_cons_self a t
          · exact List.mem_cons_of_mem c (ih t a h2)
      · rcases List.mem_cons.mp h with rfl | h2
        · exact List.mem_cons_self a t
        · exact List.mem_cons_of_mem c (ih t a h2)

theorem mem_removeThink (s : Str) (a : Char) (h : a ∈ removeThink s) : a ∈ s :=
  mem_removeThinkF s.length s a h

theorem dropWhile_head_false {α : Type} (p : α → Bool) :
    ∀ (l : List α) (c : α) (t : List α), l.dropWhile p = c :: t → p c = false := by
  intro l
  induction l with
  | nil => intro c t h; simp [List.dropWhile] at h
  | cons a l ih =>
    intro c t h
    rw [List.dropWhile_cons] at h
    split at h
    · exact ih c t h
    · cases h
      next hpa => exact Bool.not_eq_true _ |>.mp hpa

theorem tryJsonBody_brace (s g : Str) (h : tryJsonBody s = some g) : '{' ∈ s := by
  unfold tryJsonBody at h
  split at h
  · exact List.mem_cons_self _ _
  · cases h

theorem skipSpaces_subset (s : Str) : skipSpaces s ⊆ s :=
  (List.dropWhile_suffix reIsSpace).subset

theorem tryFenceJsonAt_brace (s g : Str) (h : tryFenceJsonAt s = some g) : '{' ∈ s := by
  unfold tryFenceJsonAt at h
  split at h
  · have sub3 : List.drop 3 s ⊆ s := List.drop_subset 3 s
    have sub4 : List.drop 4 (List.drop 3 s) ⊆ s := fun a ha =>
      sub3 (List.drop_subset _ _ ha)
    dsimp only at h
    split at h
    · next g2 heq =>
      cases h
      split at heq
      · exact sub4 (skipSpaces_subset _ (tryJsonBody_brace _ _ heq))
      · cases heq
    · exact sub3 (skipSpaces_subset _ (tryJsonBody_brace _ _ h))
  · cases h

theorem findFencedJson_brace : ∀ (t : Str) (g : Str),
    findFencedJson t = some g → '{' ∈ t := by
  intro t
  induction t with
  | nil => intro g h; cases h
  | cons c u ih =>
    intro g h
    unfold findFencedJson at h
    split at h
    · next heq => exact tryFenceJsonAt_brace _ _ heq
    · exact List.mem_cons_of_mem c (ih g h)

theorem findBraceSpan_brace (s g : Str) (h : findBraceSpan s = some g) : '{' ∈ s := by
  unfold findBraceSpan at h
  split at h
  · cases h
  · next c v heq =>
    have hc := dropWhile_head_false _ s c v heq
    have : c = '{' := by
      by_contra hne
      simp [hne] at hc
    subst this
    exact (List.dropWhile_suffix _).subset (heq ▸ List.mem_cons_self _ _)

/-- A lowered-text occurrence of the document-type marker, produced by a
successful case-insensitive prefix test. -/
theorem ciIsPrefixOf_lower (p s : Str) (h : ciIsPrefixOf p s = true) :
    pyLower p <+: pyLower s :=
  List.isPrefixOf_iff_prefix.mp h

theorem tryHtmlBody_doctype (s g : Str) (h : tryHtmlBody s = some g) :
    pyLower doctypeLit <+: pyLower s := by
  unfold tryHtmlBody at h
  split at h
  · next hci => exact ciIsPrefixOf_lower _ _ hci
  · cases h

theorem lower_suffix_of_suffix {u s : Str} (h : u <:+ s) : pyLower u <:+ pyLower s :=
  List.IsSuffix.map Char.toLower h

theorem tryFenceHtmlAt_doctype (s g : Str) (h : tryFenceHtmlAt s = some g) :
    pyLower doctypeLit <:+: pyLower s := by
  unfold tryFenceHtmlAt at h
  have suf3 : List.drop 3 s <:+ s := List.drop_suffix 3 s
  have suf4 : List.drop 4 (List.drop 3 s) <:+ s := (List.drop_suffix _ _).trans suf3
  split at h
  · dsimp only at h
    split at h
    · next g2 heq =>
      cases h
      split at heq
      · have h1 := tryHtmlBody_doctype _ _ heq
        have h2 : skipSpaces (List.drop 4 (List.drop 3 s)) <:+ s :=
          (List.dropWhile_suffix _).trans suf4
        exact h1.isInfix.trans (lower_suffix_of_suffix h2).isInfix
      · cases heq
    · have h1 := tryHtmlBody_doctype _ _ h
      have h2 : skipSpaces (List.drop 3 s) <:+ s :=
        (List.dropWhile_suffix _).trans suf3
      exact h1.isInfix.trans (lower_suffix_of_suffix h2).isInfix
  · cases h

theorem findFencedHtml_doctype : ∀ (t g : Str),
    findFencedHtml t = some g → pyLower doctypeLit <:+: pyLower t := by
  intro t
  induction t with
  | nil => intro g h; cases h
  | cons c u ih =>
    intro g h
    unfold findFencedHtml at h
    split at h
    · next heq => exact tryFenceHtmlAt_doctype _ _ heq
    · have h1 := ih g h
      have : pyLower u <:+ pyLower (c :: u) := lower_suffix_of_suffix (List.suffix_cons c u)
      exact h1.trans this.isInfix

theorem findRawHtml_doctype : ∀ (t g : Str),
    findRawHtml t = some g → pyLower doctypeLit <:+: pyLower t := by
  intro t
  induction t with
  | nil => intro g h; cases h
  | cons c u ih =>
    intro g h
    unfold findRawHtml at h
    split at h
    · next hci =>
      split at h
      · exact (ciIsPrefixOf_lower _ _ hci).isInfix
      · have h1 := ih g h
        exact h1.trans (lower_suffix_of_suffix (List.suffix_cons c u)).isInfix
    · have h1 := ih g h
      exact h1.trans (lower_suffix_of_suffix (List.suffix_cons c u)).isInfix

/-- Claim C3 (confirmed). `ResponseParser.extract_json` is a total function realising
the priority "strip reasoning tags, then fenced block, then outermost
brace span": a successfully parsed fenced group is returned as is; when
both parse attempts fail, the result is the value `none`, not a fault;
in particular any text containing no opening brace at all yields `none`. -/
theorem claim3_extract_json_total_fallback :
    (∀ text g v, findFencedJson (removeThink text) = some g → jsonLoads g = some v →
        extract_json text = some v)
    ∧ (∀ text : Str,
        (∀ g, findFencedJson (removeThink text) = some g → jsonLoads g = none) →
        (∀ g, findBraceSpan (removeThink text) = some g → jsonLoads g = none) →
        extract_json text = none)
    ∧ (∀ text : Str, '{' ∉ text → extract_json text = none) := by
  refine ⟨?_, ?_, ?_⟩
  · intro text g v h1 h2
    simp only [extract_json, extractJsonCore, h1, h2]
  · intro text h1 h2
    cases hf : findFencedJson (removeThink text) with
    | none =>
      cases hb2 : findBraceSpan (removeThink text) with
      | none => simp only [extract_json, extractJsonCore, fallbackBraces, hf, hb2]
      | some g =>
        simp only [extract_json, extractJsonCore, fallbackBraces, hf, hb2]
        exact h2 g hb2
    | some g =>
      cases hb2 : findBraceSpan (removeThink text) with
      | none =>
        simp only [extract_json, extractJsonCore, fallbackBraces, hf, hb2, h1 g hf]
      | some g2 =>
        simp only [extract_json, extractJsonCore, fallbackBraces, hf, hb2, h1 g hf]
        exact h2 g2 hb2
  · intro text hnb
    have hnb2 : '{' ∉ removeThink text := fun h => hnb (mem_removeThink _ _ h)
    have hf : findFencedJson (removeThink text) = none := by
      cases hf : findFencedJson (removeThink text) with
      | none => rfl
      | some g => exact absurd (findFencedJson_brace _ g hf) hnb2
    have hb : findBraceSpan (removeThink text) = none := by
      cases hb : findBraceSpan (removeThink text) with
      | none => rfl
      | some g => exact absurd (findBraceSpan_brace _ g hb) hnb2
    simp only [extract_json, extractJsonCore, fallbackBraces, hf, hb]

theorem claim3_witness : extract_json c3NoBrace = none :=
  claim3_extract_json_total_fallback.2.2 c3NoBrace (by decide)

/-- Claim C4 (confirmed). `ResponseParser.extract_html` is total and follows the
priority order: a fenced document-type block wins, then a raw
document-type region, and otherwise — in particular whenever the
text nowhere contains the document-type marker, case-insensitively —
the trimmed input is returned unchanged. -/
theorem claim4_extract_html_priority :
    (∀ text g, findFencedHtml text = some g → extract_html text = pyStrip g)
    ∧ (∀ text g, findFencedHtml text = none → findRawHtml text = some g →
        extract_html text = pyStrip g)
    ∧ (∀ text, findFencedHtml text = none → findRawHtml text = none →
        extract_html text = pyStrip text)
    ∧ (∀ text, pyContains (pyLower doctypeLit) (pyLower text) = false →
        extract_html text = pyStrip text) := by
  have sel3 : ∀ text, findFencedHtml text = none → findRawHtml text = none →
      extract_html text = pyStrip text := by
    intro text h1 h2
    simp only [extract_html, h1, h2]
  refine ⟨?_, ?_, sel3, ?_⟩
  · intro text g h
    simp only [extract_html, h]
  · intro text g h1 h2
    simp only [extract_html, h1, h2]
  · intro text hnc
    have hinf : ¬ pyLower doctypeLit <:+: pyLower text := by
      intro h
      rw [(pyContains_iff _ _).mpr h] at hnc
      cases hnc
    have hf : findFencedHtml text = none := by
      cases hf : findFencedHtml text with
      | none => rfl
      | some g => exact absurd (findFencedHtml_doctype _ g hf) hinf
    have hr : findRawHtml text = none := by
      cases hr : findRawHtml text with
      | none => rfl
      | some g => exact absurd (findRawHtml_doctype _ g hr) hinf
    exact sel3 text hf hr

theorem claim4_witness : extract_html c4Plain = pyStrip c4Plain :=
  claim4_extract_html_priority.2.2.2 c4Plain (by decide)

theorem pyReplace_repl (s p r : Str) (hp : p ≠ []) (h : p <:+: s) :
    r <:+: pyReplace s p r := by
  unfold pyReplace
  rw [if_neg (by simp [hp])]
  exact replaceAllF_repl p r hp s.length s le_rfl h

theorem pyReplace_keep (s p q r : Str) (hp : p ≠ [])
    (hqp : ¬ q <:+: p) (hpq : ¬ p <:+: q)
    (h3 : ∀ i, i < p.length → ¬ (p.drop i <+: q))
    (h4 : ∀ j, j < q.length → 0 < j → ¬ (q.drop j <+: p))
    (h : q <:+: s) : q <:+: pyReplace s p r := by
  unfold pyReplace
  rw [if_neg (by simp [hp])]
  exact replaceAllF_keep p q r hp hqp hpq h3 h4 s.length s le_rfl h

/-- Claim C2, counterexample. The claim fails as stated: on markup with
no closing head or body tag (here `"plain text"`, which lacks the
compatibility marker), `apply_fixes` injects neither block; and on
markup already containing the marker together with a closing head tag,
`apply_fixes` is not a no-op. -/
theorem claim2_counterexample :
    (pyContains markerAos (pyLower c2NoTags) = false
      ∧ pyContains aosCssFix (apply_fixes c2NoTags) = false
      ∧ pyContains aosJsFix (apply_fixes c2NoTags) = false)
    ∧ (pyContains markerAos (pyLower c2Marked) = true
      ∧ apply_fixes c2Marked ≠ c2Marked) := by
  refine ⟨⟨by decide, by decide, by decide⟩, ⟨by decide, by decide⟩⟩

/-- Claim C2, amended. For every markup string containing both a closing
head tag and a closing body tag, `apply_fixes` returns markup containing
the injected style block and the injected script block; `apply_fixes`
never inspects the compatibility marker, and it is the identity exactly
on inputs containing neither closing tag. -/
theorem claim2_apply_fixes_amended :
    (∀ html : Str, pyContains headClose html = true → pyContains bodyClose html = true →
        pyContains aosCssFix (apply_fixes html) = true
          ∧ pyContains aosJsFix (apply_fixes html) = true)
    ∧ (∀ html : Str, pyContains headClose html = false → pyContains bodyClose html = false →
        apply_fixes html = html) := by
  constructor
  · intro html h1 h2
    have hhead : headClose <:+: html := (pyContains_iff _ _).mp h1
    have hbody : bodyClose <:+: html := (pyContains_iff _ _).mp h2
    have hb1 : bodyClose <:+: pyReplace html headClose (aosCssFix ++ nlStr ++ headClose) :=
      pyReplace_keep html headClose bodyClose _ (by decide) (by decide) (by decide)
        (by decide) (by decide) hbody
    have hcss1 : aosCssFix <:+: pyReplace html headClose (aosCssFix ++ nlStr ++ headClose) := by
      have hr1 := pyReplace_repl html headClose (aosCssFix ++ nlStr ++ headClose)
        (by decide) hhead
      have hpre : aosCssFix <+: aosCssFix ++ nlStr ++ headClose :=
        (List.prefix_append aosCssFix nlStr).trans (List.prefix_append _ headClose)
      exact hpre.isInfix.trans hr1
    have hcss2 : aosCssFix <:+:
        pyReplace (pyReplace html headClose (aosCssFix ++ nlStr ++ headClose)) bodyClose
          (aosJsFix ++ nlStr ++ bodyClose) :=
      pyReplace_keep _ bodyClose aosCssFix _ (by decide) (by decide) (by decide)
        (by decide) (by decide) hcss1
    have hjs2 : aosJsFix <:+:
        pyReplace (pyReplace html headClose (aosCssFix ++ nlStr ++ headClose)) bodyClose
          (aosJsFix ++ nlStr ++ bodyClose) := by
      have hr2 := pyReplace_repl _ bodyClose (aosJsFix ++ nlStr ++ bodyClose) (by decide) hb1
      have hpre : aosJsFix <+: aosJsFix ++ nlStr ++ bodyClose :=
        (List.prefix_append aosJsFix nlStr).trans (List.prefix_append _ bodyClose)
      exact hpre.isInfix.trans hr2
    unfold apply_fixes
    dsimp only
    rw [if_pos h1, if_pos ((pyContains_iff _ _).mpr hb1)]
    exact ⟨(pyContains_iff _ _).mpr hcss2, (pyContains_iff _ _).mpr hjs2⟩
  · intro html h1 h2
    unfold apply_fixes
    dsimp only
    simp [h1, h2]

theorem claim2_witness :
    pyContains headClose ("a</head>b</body>c".toList) = true
    ∧ pyContains aosCssFix (apply_fixes ("a</head>b</body>c".toList)) = true
    ∧ pyContains aosJsFix (apply_fixes ("a</head>b</body>c".toList)) = true := by
  have h := claim2_apply_fixes_amended.1 ("a</head>b</body>c".toList) (by decide) (by decide)
  exact ⟨by decide, h.1, h.2⟩

/-- Claim C1 (confirmed). For any reasoning preamble (one containing no closing
reasoning tag) wrapping the concrete fenced JSON block carrying
`"name": "Jane Doe"`, `extract_json` returns exactly the parsed object
with the preamble discarded; and `DeepSeekAnalyzer.analyze`, run against
a gateway successfully returning that text, produces a record whose
personal name is exactly `"Jane Doe"` and whose raw-fallback field is
empty. -/
theorem claim1_fenced_json_with_preamble (reasoning cv_text : Str)
    (hr : ¬ thinkClose <:+: reasoning) :
    extract_json (c1Input reasoning) = some c1Obj
    ∧ ∀ (model : Str) (temp : Rat),
        (match (DeepSeekAnalyzer.analyze
            { chat := fun _ _ _ =>
                { content := c1Input reasoning, model := model, success := true }
            , model := model, temperature := temp } cv_text).2 with
         | .ok cv => cv.personal.name = janeDoe ∧ cv.raw_analysis = none
         | .error _ => False) := by
  have hrt : removeThink (c1Input reasoning) = c1Tail := by
    unfold c1Input
    exact removeThink_block reasoning c1Tail hr (by decide)
  have hej : extract_json (c1Input reasoning) = some c1Obj := by
    unfold extract_json
    rw [hrt]
    rfl
  refine ⟨hej, ?_⟩
  intro model temp
  simp only [DeepSeekAnalyzer.analyze]
  rw [if_pos trivial, hej]
  exact ⟨rfl, rfl⟩

theorem claim1_witness :
    extract_json (c1Input c1Reasoning) = some c1Obj
    ∧ (match (DeepSeekAnalyzer.analyze
        { chat := fun _ _ _ =>
            { content := c1Input c1Reasoning, model := mdl, success := true }
        , model := mdl, temperature := 3/10 } []).2 with
       | .ok cv => cv.personal.name = janeDoe ∧ cv.raw_analysis = none
       | .error _ => False) := by
  have h := claim1_fenced_json_with_preamble c1Reasoning [] (by decide)
  exact ⟨h.1, h.2 mdl (3/10)⟩

/-- Claim C5 (confirmed). Against an LLM service whose chat calls always fail,
`DeepSeekAnalyzer.analyze` performs exactly one `unload_model` call on
its model and raises `AnalysisError`, and `QwenPortfolioGenerator.generate`
performs exactly one `unload_model` call on its model and raises
`GenerationError`: eviction happens on the failure exit path before the
stage fault is reported. -/
theorem claim5_unload_on_failure (chatA chatG : ChatFun)
    (modelA modelG cv_text orig : Str) (tA tG : Rat) (cv : CVData)
    (hA : ∀ msgs m cfg, (chatA msgs m cfg).success = false)
    (hG : ∀ msgs m cfg, (chatG msgs m cfg).success = false) :
    (∃ msg, DeepSeekAnalyzer.analyze
        { chat := chatA, model := modelA, temperature := tA } cv_text
      = ([LLMEvent.unload modelA], Except.error msg))
    ∧ (∃ msg, QwenPortfolioGenerator.generate
        { chat := chatG, model := modelG, temperature := tG } cv orig
      = ([LLMEvent.unload modelG], Except.error msg)) := by
  constructor
  · refine ⟨errPrefixS.toList ++ pyStrOfOpt ((chatA
      [{ role := userRole, content := DeepSeekAnalyzer.build_prompt cv_text }]
      modelA ⟨tA, 4096, 8192⟩).error), ?_⟩
    simp only [DeepSeekAnalyzer.analyze, hA, Bool.false_eq_true, if_false]
  · refine ⟨errPrefixS.toList ++ pyStrOfOpt ((chatG
      [{ role := userRole, content := QwenPortfolioGenerator.build_prompt cv
          (if orig.isEmpty = true then cv.original_cv_text else orig) }]
      modelG ⟨tG, 4096, 8192⟩).error), ?_⟩
    simp only [QwenPortfolioGenerator.generate, hG, Bool.false_eq_true, if_false]

theorem claim5_witness :
    (∃ msg, DeepSeekAnalyzer.analyze
        { chat := failChat, model := mdl, temperature := 3/10 } []
      = ([LLMEvent.unload mdl], Except.error msg))
    ∧ (∃ msg, QwenPortfolioGenerator.generate
        { chat := failChat, model := mdl, temperature := 2/10 } {} []
      = ([LLMEvent.unload mdl], Except.error msg)) :=
  claim5_unload_on_failure failChat failChat mdl mdl [] [] (3/10) (2/10) {}
    (fun _ _ _ => rfl) (fun _ _ _ => rfl)

/-- Claim C6, counterexample. The claim fails as stated on two records
produced by `analyze` over successful gateway responses: for the empty
response text, structured parsing fails yet the raw-fallback field is
the *empty* string; and for a response whose JSON itself carries a
`raw_analysis` key next to structured data, the resulting record has
both a non-empty raw-fallback and a populated structured list, so the
two states are not mutually exclusive. -/
theorem claim6_counterexample :
    ((DeepSeekAnalyzer.analyze
        { chat := fun _ _ _ => { content := [], model := mdl, success := true }
        , model := mdl, temperature := 3/10 } []).2
      = Except.ok { raw_analysis := some [], original_cv_text := [] })
    ∧ (match (DeepSeekAnalyzer.analyze
        { chat := fun _ _ _ => { content := c6ContentB, model := mdl, success := true }
        , model := mdl, temperature := 3/10 } []).2 with
       | .ok cv => cv.raw_analysis = some xStr ∧ cv.certifications = [cStr]
       | .error _ => False) := by
  exact ⟨rfl, ⟨rfl, rfl⟩⟩

/-- Claim C6, amended. Whenever structured parsing of a successful
response fails (in the sense of the source: `extract_json` yields `None` or
an empty dictionary), the produced record carries the full response
text — empty exactly when the response text is — as its raw-fallback
and has every structured list empty.  Records of the unparsed branch
therefore never have populated structured fields; mutual exclusivity
can only be broken by the parsed branch, when the JSON of the model itself
supplies a `raw_analysis` key, as the counterexample shows. -/
theorem claim6_degraded_invariant_amended (chat : ChatFun)
    (model content cv_text : Str) (temp : Rat)
    (hchat : ∀ msgs m cfg, chat msgs m cfg
        = { content := content, model := model, success := true, error := none })
    (hfail : parsedTruthy (extract_json content) = false) :
    ∀ cv : CVData,
      (DeepSeekAnalyzer.analyze
          { chat := chat, model := model, temperature := temp } cv_text).2 = .ok cv →
      cv.raw_analysis = some content ∧ cv.original_cv_text = cv_text
        ∧ cv.experience = [] ∧ cv.projects = [] ∧ cv.education = []
        ∧ cv.skills.languages = [] ∧ cv.skills.frameworks = []
        ∧ cv.skills.tools = [] ∧ cv.skills.specialties = []
        ∧ cv.certifications = [] ∧ cv.languages_spoken = [] := by
  intro cv hcv
  have h1 : (DeepSeekAnalyzer.analyze
      { chat := chat, model := model, temperature := temp } cv_text).2
      = Except.ok { raw_analysis := some content, original_cv_text := cv_text } := by
    simp only [DeepSeekAnalyzer.analyze, hchat]
    rw [if_pos trivial, if_neg (by simp [hfail])]
  rw [h1] at hcv
  cases hcv
  exact ⟨rfl, rfl, rfl, rfl, rfl, rfl, rfl, rfl, rfl, rfl, rfl⟩

theorem claim6_witness :
    ({ raw_analysis := some c4Plain, original_cv_text := [] } : CVData).raw_analysis
        = some c4Plain
    ∧ ({ raw_analysis := some c4Plain, original_cv_text := [] } : CVData).original_cv_text = []
    ∧ ({ raw_analysis := some c4Plain, original_cv_text := [] } : CVData).experience = []
    ∧ ({ raw_analysis := some c4Plain, original_cv_text := [] } : CVData).projects = []
    ∧ ({ raw_analysis := some c4Plain, original_cv_text := [] } : CVData).education = []
    ∧ ({ raw_analysis := some c4Plain, original_cv_text := [] } : CVData).skills.languages = []
    ∧ ({ raw_analysis := some c4Plain, original_cv_text := [] } : CVData).skills.frameworks = []
    ∧ ({ raw_analysis := some c4Plain, original_cv_text := [] } : CVData).skills.tools = []
    ∧ ({ raw_analysis := some c4Plain, original_cv_text := [] } : CVData).skills.specialties = []
    ∧ ({ raw_analysis := some c4Plain, original_cv_text := [] } : CVData).certifications = []
    ∧ ({ raw_analysis := some c4Plain, original_cv_text := [] } : CVData).languages_spoken = [] :=
  claim6_degraded_invariant_amended
    (fun _ _ _ => { content := c4Plain, model := mdl, success := true, error := none })
    mdl c4Plain [] (3/10) (fun _ _ _ => rfl) (by decide)
    { raw_analysis := some c4Plain, original_cv_text := [] } rfl

/-- Claim C7 (confirmed). The generation prompt depends on the original text only
through its first 2000 characters; when the raw-fallback of the record is
empty (falsy), the prompt embeds the JSON-serialized structured record;
when the raw-fallback is non-empty, the prompt embeds that raw text
instead. -/
theorem claim7_prompt_embedding (cv : CVData) (orig : Str) :
    (QwenPortfolioGenerator.build_prompt cv orig
      = QwenPortfolioGenerator.build_prompt cv (pySlice 2000 orig))
    ∧ (rawAnalysisTruthy cv = false →
        jsonDumps cv.to_dict <:+: QwenPortfolioGenerator.build_prompt cv orig)
    ∧ (∀ s, cv.raw_analysis = some s → s ≠ [] →
        (dataSectionRawHeaderS.toList ++ s) <:+:
          QwenPortfolioGenerator.build_prompt cv orig) := by
  refine ⟨?_, ?_, ?_⟩
  · simp only [QwenPortfolioGenerator.build_prompt, pySlice, List.take_take]
    simp
  · intro h
    unfold QwenPortfolioGenerator.build_prompt buildDataSection
    rw [if_neg (by simp [h])]
    refine ⟨genPromptP1S.toList ++ dataSectionJsonHeaderS.toList,
      dataSectionJsonTrailerS.toList ++ (genPromptP2S.toList
        ++ (pySlice 2000 orig ++ genPromptP3S.toList)), ?_⟩
    simp [List.append_assoc]
  · intro s hs hne
    unfold QwenPortfolioGenerator.build_prompt buildDataSection
    have ht : rawAnalysisTruthy cv = true := by
      unfold rawAnalysisTruthy
      rw [hs]
      simpa using hne
    rw [if_pos ht, hs]
    refine ⟨genPromptP1S.toList,
      genPromptP2S.toList ++ (pySlice 2000 orig ++ genPromptP3S.toList), ?_⟩
    simp [List.append_assoc]

theorem claim7_witness :
    (QwenPortfolioGenerator.build_prompt c7CvParsed c1Tail
      = QwenPortfolioGenerator.build_prompt c7CvParsed (pySlice 2000 c1Tail))
    ∧ jsonDumps c7CvParsed.to_dict <:+: QwenPortfolioGenerator.build_prompt c7CvParsed c1Tail
    ∧ (dataSectionRawHeaderS.toList ++ xStr) <:+:
        QwenPortfolioGenerator.build_prompt c7CvRaw c1Tail :=
  ⟨(claim7_prompt_embedding c7CvParsed c1Tail).1,
   (claim7_prompt_embedding c7CvParsed c1Tail).2.1 (by decide),
   (claim7_prompt_embedding c7CvRaw c1Tail).2.2 xStr rfl (by decide)⟩

/-- Claim C8 (confirmed). For every behaviour of the external model runtime
(returning a response object or raising), `OllamaService.generate` and
`OllamaService.chat` return a value — never a propagated fault — that
is exactly one of: success with no error, or failure with a non-`None`
error string and empty content. -/
theorem claim8_ollama_total_result (rg : RuntimeOutcome (Option Str))
    (rc : RuntimeOutcome (Option (Option Str))) (model : Str) :
    ((∃ c, OllamaService.generate rg model
        = { content := c, model := model, success := true, error := none })
      ∨ (∃ e, OllamaService.generate rg model
        = { content := [], model := model, success := false, error := some e }))
    ∧ ((∃ c, OllamaService.chat rc model
        = { content := c, model := model, success := true, error := none })
      ∨ (∃ e, OllamaService.chat rc model
        = { content := [], model := model, success := false, error := some e })) := by
  constructor
  · cases rg with
    | ok resp => exact Or.inl ⟨resp.getD [], rfl⟩
    | raised e => exact Or.inr ⟨e, rfl⟩
  · cases rc with
    | ok resp => exact Or.inl ⟨(resp.getD none).getD [], rfl⟩
    | raised e => exact Or.inr ⟨e, rfl⟩

/-- Every trace of the pipeline body lists each stage at most once and
never contains the error dialog (which only the top-level handler can
add). -/
theorem runBody_nodup (b : PipelineBehaviors) :
    (runBody b).1.Nodup ∧ PEvent.showError ∉ (runBody b).1 := by
  unfold runBody
  repeat' split
  all_goals dsimp only
  all_goals exact (by decide)

/-- Claim C9 (confirmed). `CVPortfolioPipeline.run` retries no stage and propagates no
exception: an empty file selection exits silently with `None` (no error
dialog); a raising stage — extraction, analysis, generation or
persistence — leads to exactly one error dialog and a `None` result;
and every possible trace invokes each stage and dialog at most once. -/
theorem claim9_pipeline_error_policy :
    (∀ b : PipelineBehaviors, b.select_file = .ok none →
        run b = ([PEvent.selectFile], none))
    ∧ (∀ (b : PipelineBehaviors) (p e : Str), b.select_file = .ok (some p) →
        b.extract p = .raised e →
        run b = ([PEvent.selectFile, PEvent.extractText, PEvent.showError], none))
    ∧ (∀ (b : PipelineBehaviors) (p cv_text sp e : Str),
        b.select_file = .ok (some p) → b.extract p = .ok cv_text →
        (pyStrip cv_text).isEmpty = false →
        b.save cv_text rawTextName txtExt = .ok sp →
        b.analyze cv_text = .raised e →
        run b = ([PEvent.selectFile, PEvent.extractText, PEvent.saveRawText,
          PEvent.analyzeCv, PEvent.showError], none))
    ∧ (∀ (b : PipelineBehaviors) (p cv_text sp sj e : Str) (cvd : CVData),
        b.select_file = .ok (some p) → b.extract p = .ok cv_text →
        (pyStrip cv_text).isEmpty = false →
        b.save cv_text rawTextName txtExt = .ok sp →
        b.analyze cv_text = .ok (some cvd) →
        b.save (jsonDumps cvd.to_dict) extractedDataName jsonExt = .ok sj →
        b.generate cvd = .raised e →
        run b = ([PEvent.selectFile, PEvent.extractText, PEvent.saveRawText,
          PEvent.analyzeCv, PEvent.saveJsonDump, PEvent.generateHtml,
          PEvent.showError], none))
    ∧ (∀ (b : PipelineBehaviors) (p cv_text sp sj html e : Str) (cvd : CVData),
        b.select_file = .ok (some p) → b.extract p = .ok cv_text →
        (pyStrip cv_text).isEmpty = false →
        b.save cv_text rawTextName txtExt = .ok sp →
        b.analyze cv_text = .ok (some cvd) →
        b.save (jsonDumps cvd.to_dict) extractedDataName jsonExt = .ok sj →
        b.generate cvd = .ok html → html.isEmpty = false →
        b.save html (portfolioName (b.stem p) b.timestamp) htmlExt = .raised e →
        run b = ([PEvent.selectFile, PEvent.extractText, PEvent.saveRawText,
          PEvent.analyzeCv, PEvent.saveJsonDump, PEvent.generateHtml,
          PEvent.savePortfolio, PEvent.showError], none))
    ∧ (∀ b : PipelineBehaviors, (run b).1.Nodup) := by
  refine ⟨?_, ?_, ?_, ?_, ?_, ?_⟩
  · intro b h1
    simp only [run, runBody, h1]
  · intro b p e h1 h2
    simp only [run, runBody, h1, h2]
    rfl
  · intro b p cv_text sp e h1 h2 h3 h4 h5
    simp only [run, runBody, h1, h2, h3, h4, h5, Bool.false_eq_true, if_false]
    rfl
  · intro b p cv_text sp sj e cvd h1 h2 h3 h4 h5 h6 h7
    simp only [run, runBody, h1, h2, h3, h4, h5, h6, h7, Bool.false_eq_true, if_false]
    rfl
  · intro b p cv_text sp sj html e cvd h1 h2 h3 h4 h5 h6 h7 h8 h9
    simp only [run, runBody, h1, h2, h3, h4, h5, h6, h7, h8, h9,
      Bool.false_eq_true, if_false]
    rfl
  · intro b
    obtain ⟨hnd, hne⟩ := runBody_nodup b
    unfold run
    split
    · next evs res heq =>
      rw [heq] at hnd
      exact hnd
    · next evs e heq =>
      rw [heq] at hnd hne
      refine List.Nodup.append hnd (by decide) ?_
      intro x hx hx2
      have : x = PEvent.showError := by
        rcases List.mem_singleton.mp hx2 with rfl
        rfl
      subst this
      exact hne hx

theorem claim9_witness : run c9Behaviors = ([PEvent.selectFile], none) :=
  claim9_pipeline_error_policy.1 c9Behaviors rfl

theorem filterMap_jStrOf_map (l : List Str) :
    List.filterMap jStrOf (l.map JValue.jstr) = l := by
  rw [List.filterMap_map]
  exact List.filterMap_some l

theorem exp_round (e : Experience) :
    Experience.fromEntry (JValue.jobj
      [ (kCompany, JValue.jstr e.company), (kRole, JValue.jstr e.role)
      , (kPeriod, JValue.jstr e.period), (kDescription, JValue.jstr e.description)
      , (kHighlights, JValue.jarr (e.highlights.map JValue.jstr)) ]) = e := by
  obtain ⟨c, r, p, d, h⟩ := e
  have h1 : Experience.fromEntry (JValue.jobj
      [ (kCompany, JValue.jstr c), (kRole, JValue.jstr r)
      , (kPeriod, JValue.jstr p), (kDescription, JValue.jstr d)
      , (kHighlights, JValue.jarr (h.map JValue.jstr)) ])
      = ⟨c, r, p, d, List.filterMap jStrOf (h.map JValue.jstr)⟩ := rfl
  rw [h1, filterMap_jStrOf_map]

theorem exp_map_round (l : List Experience) :
    (l.map (fun exp => JValue.jobj
      [ (kCompany, JValue.jstr exp.company), (kRole, JValue.jstr exp.role)
      , (kPeriod, JValue.jstr exp.period), (kDescription, JValue.jstr exp.description)
      , (kHighlights, JValue.jarr (exp.highlights.map JValue.jstr)) ])).map
        Experience.fromEntry = l := by
  induction l with
  | nil => rfl
  | cons e l ih =>
    simp only [List.map_cons]
    rw [exp_round, ih]

theorem proj_round (p : Project) :
    Project.fromEntry (JValue.jobj
      [ (kName, JValue.jstr p.name), (kDescription, JValue.jstr p.description)
      , (kTechStack, JValue.jarr (p.tech_stack.map JValue.jstr))
      , (kLink, optJ p.link), (kType, JValue.jstr p.type) ]) = p := by
  obtain ⟨n, d, ts, li, ty⟩ := p
  cases li with
  | none =>
    have h1 : Project.fromEntry (JValue.jobj
        [ (kName, JValue.jstr n), (kDescription, JValue.jstr d)
        , (kTechStack, JValue.jarr (ts.map JValue.jstr))
        , (kLink, optJ none), (kType, JValue.jstr ty) ])
        = ⟨n, d, List.filterMap jStrOf (ts.map JValue.jstr), none, ty⟩ := rfl
    rw [h1, filterMap_jStrOf_map]
  | some s =>
    have h1 : Project.fromEntry (JValue.jobj
        [ (kName, JValue.jstr n), (kDescription, JValue.jstr d)
        , (kTechStack, JValue.jarr (ts.map JValue.jstr))
        , (kLink, optJ (some s)), (kType, JValue.jstr ty) ])
        = ⟨n, d, List.filterMap jStrOf (ts.map JValue.jstr), some s, ty⟩ := rfl
    rw [h1, filterMap_jStrOf_map]

theorem proj_map_round (l : List Project) :
    (l.map (fun proj => JValue.jobj
      [ (kName, JValue.jstr proj.name), (kDescription, JValue.jstr proj.description)
      , (kTechStack, JValue.jarr (proj.tech_stack.map JValue.jstr))
      , (kLink, optJ proj.link), (kType, JValue.jstr proj.type) ])).map
        Project.fromEntry = l := by
  induction l with
  | nil => rfl
  | cons e l ih =>
    simp only [List.map_cons]
    rw [proj_round, ih]

theorem edu_round (e : Education) :
    Education.fromEntry (JValue.jobj
      [ (kInstitution, JValue.jstr e.institution), (kDegree, JValue.jstr e.degree)
      , (kPeriod, JValue.jstr e.period) ]) = e := rfl

theorem edu_map_round (l : List Education) :
    (l.map (fun edu => JValue.jobj
      [ (kInstitution, JValue.jstr edu.institution), (kDegree, JValue.jstr edu.degree)
      , (kPeriod, JValue.jstr edu.period) ])).map Education.fromEntry = l := by
  induction l with
  | nil => rfl
  | cons e l ih =>
    simp only [List.map_cons]
    rw [edu_round, ih]

/-- Claim C10 (confirmed). Dictionary round-trip: on any record with no raw-fallback
and empty original text — the two fields `to_dict` deliberately omits —
`from_dict` inverts `to_dict` exactly, every structured field included. -/
theorem claim10_roundtrip (cv : CVData) (h1 : cv.raw_analysis = none)
    (h2 : cv.original_cv_text = []) :
    CVData.from_dict cv.to_dict [] = cv := by
  obtain ⟨p, l, ex, pr, ed, sk, ce, ls, ra, ot⟩ := cv
  dsimp only at h1 h2
  subst h1
  subst h2
  obtain ⟨n, t, tg, bb, em, ph, lo⟩ := p
  obtain ⟨li, gh, ws, oth⟩ := l
  obtain ⟨sl, sf, st2, ss⟩ := sk
  refine CVData.ext ?_ ?_ ?_ ?_ ?_ ?_ ?_ ?_ ?_ ?_
  · cases em <;> cases ph <;> cases lo <;> rfl
  · refine Links.ext ?_ ?_ ?_ ?_
    · cases li <;> rfl
    · cases gh <;> rfl
    · cases ws <;> rfl
    · exact filterMap_jStrOf_map oth
  · exact exp_map_round ex
  · exact proj_map_round pr
  · exact edu_map_round ed
  · refine Skills.ext ?_ ?_ ?_ ?_
    · exact filterMap_jStrOf_map sl
    · exact filterMap_jStrOf_map sf
    · exact filterMap_jStrOf_map st2
    · exact filterMap_jStrOf_map ss
  · exact filterMap_jStrOf_map ce
  · exact filterMap_jStrOf_map ls
  · rfl
  · rfl

theorem claim10_witness :
    c10Cv.raw_analysis = none ∧ c10Cv.original_cv_text = []
      ∧ CVData.from_dict c10Cv.to_dict [] = c10Cv :=
  ⟨rfl, rfl, claim10_roundtrip c10Cv rfl rfl⟩

end CvSite
